import Mathlib

/-!
Verification of the GitHub-to-Telegram webhook bridge
(files `worker.js` and the worker version embedded in `README.md`).

JavaScript strings are modelled as `List Char` (sequences of Unicode scalar
values; all strings handled by this program are well-formed Unicode).
JavaScript runtime type errors (property access on `null`/`undefined`,
calling a string method on a non-string) are modelled by `Except JErr`.
The WebCrypto HMAC digest and `Date` parsing are platform primitives, not
code of this repository; they are abstracted as function parameters.
-/

/-- A JavaScript runtime exception (the only kind this code can raise). -/
inductive JErr where
  | typeError
deriving DecidableEq, Repr

/-- JSON-decoded JavaScript values (plus `undefined`). -/
inductive JV where
  | undefV
  | jnull
  | jbool (b : Bool)
  | jnum (n : Int)
  | jstr (s : List Char)
  | jarr (xs : List JV)
  | jobj (fs : List (List Char × JV))

/-- The backslash character. -/
def bslash : Char := Char.ofNat 92

/-- The newline character. -/
def nlChar : Char := Char.ofNat 10

/-- JavaScript truthiness of a value. -/
def jsTruthy : JV → Bool
  | .undefV => false
  | .jnull => false
  | .jbool b => b
  | .jnum n => n != 0
  | .jstr s => !s.isEmpty
  | .jarr _ => true
  | .jobj _ => true

/-- Is the value `null` or `undefined` (property access on it throws)? -/
def isNullish : JV → Bool
  | .undefV => true
  | .jnull => true
  | _ => false

/-- Field lookup in an object literal; a missing field is `undefined`. -/
def lookupField : List (List Char × JV) → List Char → JV
  | [], _ => .undefV
  | p :: t, k => if p.1 = k then p.2 else lookupField t k

/-- UTF-16 length of a string (JavaScript `s.length`). -/
def jsLen16 : List Char → Nat
  | [] => 0
  | c :: t => (if c.toNat < 65536 then 1 else 2) + jsLen16 t

/-- Property read `v[k]`, throwing on `null`/`undefined` receivers.
`length` on strings and arrays is the only non-object property this
program reads; all other reads on primitives yield `undefined`. -/
def memGet (v : JV) (k : List Char) : Except JErr JV :=
  match v with
  | .undefV => .error .typeError
  | .jnull => .error .typeError
  | .jobj fs => .ok (lookupField fs k)
  | .jstr s => if k = ( "length".toList) then .ok (.jnum (jsLen16 s)) else .ok .undefV
  | .jarr xs => if k = ( "length".toList) then .ok (.jnum (xs.length : Nat)) else .ok .undefV
  | _ => .ok .undefV

/-- Optional chaining `v?.k`: `undefined` for nullish receivers. -/
def optGet (v : JV) (k : List Char) : JV :=
  match v with
  | .undefV => .undefV
  | .jnull => .undefV
  | .jobj fs => lookupField fs k
  | .jstr s => if k = ( "length".toList) then .jnum (jsLen16 s) else .undefV
  | .jarr xs => if k = ( "length".toList) then .jnum (xs.length : Nat) else .undefV
  | _ => .undefV

/-- Logical or `a || b`. -/
def jsOr (a b : JV) : JV := if jsTruthy a then a else b

/-- Decimal rendering of an integer (JavaScript number-to-string for
integral values). -/
def intToStr (n : Int) : List Char := (toString n).toList

/-- String rendering of an array element inside `Array.prototype.flatten`:
`null`/`undefined` render as empty. Nested arrays/objects never occur in
the fields this program formats. -/
def scalarStr : JV → List Char
  | .undefV => []
  | .jnull => []
  | .jbool b => if b then ( "true".toList) else ( "false".toList)
  | .jnum n => intToStr n
  | .jstr s => s
  | .jarr _ => []
  | .jobj _ => ( "[object Object]".toList)

/-- Comma-joined rendering of array elements (`Array.prototype.toString`). -/
def joinComma : List JV → List Char
  | [] => []
  | [x] => scalarStr x
  | x :: t => scalarStr x ++ [','] ++ joinComma t

/-- Template-literal interpolation of a value (never throws). -/
def tmpl : JV → List Char
  | .undefV => ( "undefined".toList)
  | .jnull => ( "null".toList)
  | .jbool b => if b then ( "true".toList) else ( "false".toList)
  | .jnum n => intToStr n
  | .jstr s => s
  | .jarr xs => joinComma xs
  | .jobj _ => ( "[object Object]".toList)

/-- Method call `v.toString()`: throws on nullish receivers. -/
def jsToStrM (v : JV) : Except JErr (List Char) :=
  match v with
  | .undefV => .error .typeError
  | .jnull => .error .typeError
  | _ => .ok (tmpl v)

/-- The Telegram MarkdownV2 reserved character class of the source's
escape regex: `_ * [ ] ( ) ~ ` > # + - = | { } . !`. -/
def reservedMd : List Char :=
  ( "_*[]()~`>#+-=|.!".toList) ++ [Char.ofNat 123, Char.ofNat 125]

/-- Membership in the reserved class. -/
def isReservedMd (c : Char) : Bool := reservedMd.contains c

/-- Body of `worker.js` `escapeMarkdownV2`: one global regex pass putting a
backslash before each reserved character (backslashes are not escaped). -/
def escapeMarkdownV2W : List Char → List Char
  | [] => []
  | c :: t => (if isReservedMd c then [bslash, c] else [c]) ++ escapeMarkdownV2W t

/-- First pass of the `README.md` version: `text.replace(/\\/g, "\\\\")` —
double every backslash. -/
def escBackslashPass : List Char → List Char
  | [] => []
  | c :: t => (if c = bslash then [bslash, bslash] else [c]) ++ escBackslashPass t

/-- Body of `README.md` `escapeMarkdownV2`: escape backslashes first, then
the reserved class. -/
def escapeMarkdownV2R (s : List Char) : List Char :=
  escapeMarkdownV2W (escBackslashPass s)

/-- Full `worker.js` `escapeMarkdownV2` including its falsy guard
(`if (!text) return ""`); truthy non-strings throw (`.replace` is not a
function on them). -/
def escapeMDW (v : JV) : Except JErr (List Char) :=
  if jsTruthy v = false then .ok [] else
  match v with
  | .jstr s => .ok (escapeMarkdownV2W s)
  | _ => .error .typeError

/-- Modelled from the spec: un-escaping of MarkdownV2 literal text, the
destination parser's reading of escaped output — drop the one backslash
in front of each escaped character. -/
def unescapeMD : List Char → List Char
  | [] => []
  | [c] => [c]
  | c :: d :: t =>
    if c = bslash then d :: unescapeMD t else c :: unescapeMD (d :: t)


/-- UTF-8 encoding of one scalar value (`TextEncoder` on one character). -/
def utf8Char (c : Char) : List Nat :=
  let n := c.toNat
  if n < 128 then [n]
  else if n < 2048 then [192 + n / 64, 128 + n % 64]
  else if n < 65536 then [224 + n / 4096, 128 + n / 64 % 64, 128 + n % 64]
  else [240 + n / 262144, 128 + n / 4096 % 64, 128 + n / 64 % 64, 128 + n % 64]

/-- UTF-8 encoding of a string (`new TextEncoder().encode(s)`). -/
def utf8Bytes : List Char → List Nat
  | [] => []
  | c :: t => utf8Char c ++ utf8Bytes t

/-- The accumulator of the comparison loop in `timingSafeEqual`:
`result |= encodedA[i] ^ encodedB[i]` over every index of `encodedA`
(a missing `encodedB[i]` is `undefined`, which `^` coerces to 0). -/
def tseFold : List Nat → List Nat → Nat
  | [], _ => 0
  | a :: as, [] => (a ^^^ 0) ||| tseFold as []
  | a :: as, b :: bs => (a ^^^ b) ||| tseFold as bs

/-- Function `timingSafeEqual(a, b)`: immediate `false` on a length mismatch,
otherwise XOR-accumulate every byte pair of the UTF-8 encodings and
succeed only if the accumulated value is zero. -/
def timingSafeEqual (a b : List Char) : Bool :=
  if jsLen16 a ≠ jsLen16 b then false
  else tseFold (utf8Bytes a) (utf8Bytes b) == 0

/-- Lowercase hexadecimal digit characters, as produced by JavaScript
`Number.prototype.toString(16)`. -/
def hexDigitChar (k : Nat) : Char :=
  if k < 10 then Char.ofNat (48 + k) else Char.ofNat (87 + k)

/-- Digit loop of `n.toString(16)`; the first argument is fuel (any
value `≥ n` gives the mathematical digit string). -/
def hexDigitsGo : Nat → Nat → List Char
  | 0, n => [hexDigitChar (n % 16)]
  | fuel + 1, n =>
    if n < 16 then [hexDigitChar n]
    else hexDigitsGo fuel (n / 16) ++ [hexDigitChar (n % 16)]

/-- Rendering `n.toString(16)` for a natural number. -/
def natToHex16 (n : Nat) : List Char := hexDigitsGo n n

/-- Padding `.padStart(2, "0")` on a digit string. -/
def padStart2 (s : List Char) : List Char :=
  if s.length < 2 then List.replicate (2 - s.length) '0' ++ s else s

/-- One byte rendered as two lowercase hex characters:
`b.toString(16).padStart(2, "0")`. -/
def byteHex (b : Nat) : List Char := padStart2 (natToHex16 b)

/-- The digest bytes rendered as a lowercase-hex string
(`Array.from(new Uint8Array(mac)).map(..).flatten("")`). -/
def bytesToHex : List Nat → List Char
  | [] => []
  | b :: t => byteHex b ++ bytesToHex t

/-- The literal header leader `"sha256="`. -/
def sha256Lit : List Char := ( "sha256=".toList)

/-- Function `verifyGitHubSignature(secret, body, signatureHeader)`.  The
HMAC-SHA256 primitive (`crypto.subtle`) is a platform facility, not code
of this repository; it is abstracted as the parameter `mac` giving the
digest bytes of a (secret, body) pair. -/
def verifyGitHubSignature (mac : List Char → List Char → List Nat)
    (secret body hdr : List Char) : Bool :=
  if sha256Lit.isPrefixOf hdr then
    timingSafeEqual (hdr.drop 7) (bytesToHex (mac secret body))
  else false

/-- Shadow of `verifyGitHubSignature` that also counts how many times the
HMAC digest is computed (`crypto.subtle.sign` calls), mirroring the
source's control flow: the digest is computed exactly when the
`"sha256="` prefix test passes. -/
def verifyGitHubSignatureInstr (mac : List Char → List Char → List Nat)
    (secret body hdr : List Char) : Bool × Nat :=
  if sha256Lit.isPrefixOf hdr then
    (timingSafeEqual (hdr.drop 7) (bytesToHex (mac secret body)), 1)
  else (false, 0)

/-- JavaScript whitespace trimmed by `String.prototype.trim` (the ASCII
part; no other whitespace occurs in this program's output). -/
def jsWsChar (c : Char) : Bool :=
  c = ' ' || c = Char.ofNat 9 || c = nlChar || c = Char.ofNat 13 ||
  c = Char.ofNat 11 || c = Char.ofNat 12

/-- Method `s.trim()`. -/
def jsTrimStr (s : List Char) : List Char :=
  (((s.dropWhile jsWsChar).reverse).dropWhile jsWsChar).reverse

/-- Constructor `new Date(x)` as a millisecond timestamp; `none` is an Invalid Date
(whose numeric value is `NaN`).  Parsing of date strings is a platform
primitive, abstracted as the parameter `parse`. -/
def jdate (parse : List Char → Option Int) : JV → Option Int
  | .jstr s => parse s
  | .jnum n => some n
  | .jbool b => some (if b then 1 else 0)
  | _ => none

/-- Subtraction `end - start` on numbers-or-NaN. -/
def jsubNaN : Option Int → Option Int → Option Int
  | some a, some b => some (a - b)
  | _, _ => none

/-- Comparison `x < k` (false when `x` is NaN). -/
def jltNaN (x : Option Int) (k : Int) : Bool :=
  match x with
  | some v => v < k
  | none => false

/-- Comparison `x > k` (false when `x` is NaN). -/
def jgtNaN (x : Option Int) (k : Int) : Bool :=
  match x with
  | some v => k < v
  | none => false

/-- Division `Math.floor(x / d)` (NaN propagates). -/
def jfloorDivNaN (x : Option Int) (d : Int) : Option Int :=
  x.map (fun v => Int.fdiv v d)

/-- Remainder `x % m`, JavaScript truncated remainder (NaN propagates). -/
def jmodNaN (x : Option Int) (m : Int) : Option Int :=
  x.map (fun v => Int.tmod v m)

/-- Template rendering of a number-or-NaN. -/
def jnumToStrNaN (x : Option Int) : List Char :=
  match x with
  | some v => intToStr v
  | none => ( "NaN".toList)

/-- Function `formatDuration(startStr, endStr)` of `README.md`.  The `try`/`catch`
of the source is dead code in this body (none of these operations
throws), so it has no counterpart here. -/
def formatDurationR (parse : List Char → Option Int) (sv ev : JV) : List Char :=
  if !(jsTruthy sv) || !(jsTruthy ev) then [] else
  let start := jdate parse sv
  let endv := jdate parse ev
  let durationMs := jsubNaN endv start
  if jltNaN durationMs 0 then [] else
  let seconds := jmodNaN (jfloorDivNaN durationMs 1000) 60
  let minutes := jmodNaN (jfloorDivNaN durationMs 60000) 60
  let hours := jfloorDivNaN durationMs 3600000
  let durationStr :=
    (if jgtNaN hours 0 then jnumToStrNaN hours ++ ( "h ".toList) else [])
    ++ (if jgtNaN minutes 0 then jnumToStrNaN minutes ++ ( "m ".toList) else [])
    ++ jnumToStrNaN seconds ++ [ 's' ]
  ( "(took ".toList) ++ escapeMarkdownV2R (jsTrimStr durationStr) ++ [ ')' ]

/-- Method `s.replace(pat, rep)` with a string pattern: replace the first
occurrence only. -/
def jsReplaceOnce (pat rep : List Char) : List Char → List Char
  | [] => if pat = [] then rep else []
  | c :: t =>
    if pat.isPrefixOf (c :: t) then rep ++ (c :: t).drop pat.length
    else c :: jsReplaceOnce pat rep t

/-- Method `v.replace(pat, rep)`: throws unless the receiver is a string
(on nullish it is a property access error, on other primitives
`.replace` is not a function). -/
def jsReplaceM (v : JV) (pat rep : List Char) : Except JErr (List Char) :=
  match v with
  | .jstr s => .ok (jsReplaceOnce pat rep s)
  | _ => .error .typeError

/-- Method `v.startsWith(pat)`: throws unless the receiver is a string. -/
def jsStartsWithM (v : JV) (pat : List Char) : Except JErr Bool :=
  match v with
  | .jstr s => .ok (pat.isPrefixOf s)
  | _ => .error .typeError

/-- Method `v.substring(0, n)`: throws unless the receiver is a string.
(Indices are scalar-value counts; every sliced field in the verified
claims is ASCII, where this coincides with UTF-16 indexing.) -/
def jsSubstring0M (v : JV) (n : Nat) : Except JErr (List Char) :=
  match v with
  | .jstr s => .ok (s.take n)
  | _ => .error .typeError

/-- Method chain `v.split("\n")[0]`: first line of a string. -/
def jsSplitNl0M (v : JV) : Except JErr (List Char) :=
  match v with
  | .jstr s => .ok (s.takeWhile (fun c => c ≠ nlChar))
  | _ => .error .typeError

/-- Strict equality `v === n` against a number literal. -/
def jsSEqN (v : JV) (n : Int) : Bool :=
  match v with
  | .jnum m => m == n
  | _ => false

/-- Strict equality `v === s` against a string literal. -/
def jsSEqS (v : JV) (s : List Char) : Bool :=
  match v with
  | .jstr t => t == s
  | _ => false

/-- Comparison `v > n` against a number literal (every use compares the numeric
`length` property; `undefined` compares false). -/
def jsGtN (v : JV) (n : Int) : Bool :=
  match v with
  | .jnum m => n < m
  | _ => false

/-- Subtraction `v - n` for a number literal (every use subtracts from a numeric
`length`). -/
def jvSubN (v : JV) (n : Int) : JV :=
  match v with
  | .jnum m => .jnum (m - n)
  | _ => .undefV

/-- Slicing `commits.slice(0, 3)` followed by `forEach`: needs an array
receiver (on anything else `.slice`/`.forEach` is not a function). -/
def jsSliceArr (v : JV) : Except JErr (List JV) :=
  match v with
  | .jarr xs => .ok (xs.take 3)
  | _ => .error .typeError

/-- The mojibake character sequence the source file contains for its
star icon (the file's emoji are double-encoded). -/
def starSeq : List Char := [Char.ofNat 8218, Char.ofNat 8800, Char.ofNat 234]

/-- The source file's character sequence for the unstar icon. -/
def unstarSeq : List Char :=
  [Char.ofNat 63743, Char.ofNat 252, Char.ofNat 237, Char.ofNat 238]

/-- The source file's character sequence for the watch icon. -/
def watchSeq : List Char :=
  [Char.ofNat 63743, Char.ofNat 252, Char.ofNat 235, Char.ofNat 196]

/-- The common header line of every `worker.js` message:
`*Repo:* [<repo>](<url>) \| *By:* [<sender>](<url>)\n`
(the trailing `\n` is the two characters backslash, `n`). -/
def mkHeader (rn ru sn su : List Char) : List Char :=
  ( r"*Repo:* [".toList) ++ rn ++ ( r"](".toList) ++ ru
  ++ ( r") \| *By:* [".toList) ++ sn ++ ( r"](".toList) ++ su
  ++ ( r")\n".toList)

/-- The common prelude of `worker.js` `formatMessage`: repository and
sender names (escaped, with `"Unknown Repo"`/`"Unknown User"` defaults)
and their URLs (with `"#"` defaults, template-rendered). -/
def headerParts (p : JV) :
    Except JErr (List Char × List Char × List Char × List Char) := do
  let repo ← memGet p ( "repository".toList)
  let repoName ← escapeMDW
    (jsOr (optGet repo ( "full_name".toList)) (.jstr ( "Unknown Repo".toList)))
  let repoUrl := optGet repo ( "html_url".toList)
  let sender ← memGet p ( "sender".toList)
  let senderName ← escapeMDW
    (jsOr (optGet sender ( "login".toList)) (.jstr ( "Unknown User".toList)))
  let senderUrl := optGet sender ( "html_url".toList)
  .ok (repoName, tmpl (jsOr repoUrl (.jstr [ '#' ])),
       senderName, tmpl (jsOr senderUrl (.jstr [ '#' ])))

/-- One iteration of the `commits.slice(0, 3).forEach` body: the
rendered line for one commit (short SHA, first message line, author). -/
def renderCommitLine (c : JV) : Except JErr (List Char) := do
  let cmsg ← escapeMDW (.jstr (← jsSplitNl0M (← memGet c ( "message".toList))))
  let sha ← escapeMDW (.jstr (← jsSubstring0M (← memGet c ( "id".toList)) 7))
  let curl ← memGet c ( "url".toList)
  let author ← memGet c ( "author".toList)
  let an ← memGet author ( "name".toList)
  let un ← memGet author ( "username".toList)
  let authorStr ← escapeMDW (jsOr an un)
  .ok (( r"  \- [".toList) ++ sha ++ ( r"](".toList) ++ tmpl curl
    ++ ( r") ".toList) ++ cmsg ++ ( r" \- _".toList) ++ authorStr
    ++ ( r"_\n".toList))

/-- The `commits.slice(0, 3).forEach(..)` loop: append the rendered
line of each commit to the accumulated message. -/
def forEachCommits : List JV → List Char → Except JErr (List Char)
  | [], acc => .ok acc
  | c :: t, acc => do
    let line ← renderCommitLine c
    forEachCommits t (acc ++ line)

/-- Case of `worker.js` `formatMessage`: `case "push"`. -/
def pushCase (p : JV) (header : List Char) : Except JErr (List Char) := do
  let refv ← escapeMDW (← memGet p ( "ref".toList))
  let r1 ← jsReplaceM (← memGet p ( "ref".toList)) ( "refs/heads/".toList) []
  let branch ← escapeMDW (.jstr (jsReplaceOnce ( "refs/tags/".toList) [] r1))
  let commits := jsOr (← memGet p ( "commits".toList)) (.jarr [])
  let commitCount ← memGet commits ( "length".toList)
  let compareUrl ← memGet p ( "compare".toList)
  let forced ← memGet p ( "forced".toList)
  if jsSEqN commitCount 0 && jsTruthy forced then
    .ok (header ++ ( r"*Force Pushed* to branch `".toList) ++ branch
      ++ ( r"` \(no new commits\)\. [Compare changes](".toList)
      ++ tmpl compareUrl ++ [ ')' ])
  else if jsGtN commitCount 0 then do
    let countLine := header ++ ( r"*Pushed ".toList) ++ tmpl commitCount
      ++ ( r" commit".toList) ++ (if jsGtN commitCount 1 then [ 's' ] else [])
      ++ ( r"* to branch `".toList) ++ branch
      ++ ( r"`\. [Compare changes](".toList) ++ tmpl compareUrl
      ++ ( r")\n".toList)
    let sliced ← jsSliceArr commits
    let msg1 ← forEachCommits sliced countLine
    if jsGtN commitCount 3 then
      .ok (msg1 ++ ( r"  \.\.\. and ".toList) ++ tmpl (jvSubN commitCount 3)
        ++ ( r" more\.\n".toList))
    else .ok msg1
  else do
    let deleted ← memGet p ( "deleted".toList)
    let tagDel ← if jsTruthy deleted then do
        let rv ← memGet p ( "ref".toList)
        jsStartsWithM rv ( "refs/tags/".toList)
      else pure false
    if tagDel then .ok []
    else
      .ok (header ++ ( r"Pushed to `".toList) ++ refv
        ++ ( r"` \(no commits detected in payload, check compare link\)\. [Compare changes](".toList)
        ++ tmpl compareUrl ++ [ ')' ])

/-- Case of `worker.js` `formatMessage`: `case "pull_request"`. -/
def prCase (p : JV) (header : List Char) : Except JErr (List Char) := do
  let pr ← memGet p ( "pull_request".toList)
  let prNumber ← memGet pr ( "number".toList)
  let prTitle ← escapeMDW (← memGet pr ( "title".toList))
  let prUrl ← memGet pr ( "html_url".toList)
  let action ← escapeMDW (← memGet p ( "action".toList))
  let merged ← memGet pr ( "merged".toList)
  let base := header ++ ( r"*Pull Request #".toList) ++ tmpl prNumber
    ++ ( r": ".toList) ++ prTitle ++ ( r"* [".toList) ++ action
    ++ ( r"](".toList) ++ tmpl prUrl ++ [ ')' ]
  if action = ( "closed".toList) then
    .ok (base ++ (if jsTruthy merged then ( r" \(*Merged*\)".toList)
      else ( r" \(*Not Merged*\)".toList)))
  else if action = ( "assigned".toList) then do
    let a ← escapeMDW (jsOr (optGet (optGet p ( "assignee".toList)) ( "login".toList))
      (.jstr ( "someone".toList)))
    .ok (base ++ ( r" to ".toList) ++ a)
  else if action = ( "labeled".toList) then do
    let l ← escapeMDW (jsOr (optGet (optGet p ( "label".toList)) ( "name".toList))
      (.jstr []))
    .ok (base ++ ( r" with label `".toList) ++ l ++ [ '`' ])
  else .ok base

/-- Case of `worker.js` `formatMessage`: `case "issues"`. -/
def issuesCase (p : JV) (header : List Char) : Except JErr (List Char) := do
  let issue ← memGet p ( "issue".toList)
  let issueNumber ← memGet issue ( "number".toList)
  let issueTitle ← escapeMDW (← memGet issue ( "title".toList))
  let issueUrl ← memGet issue ( "html_url".toList)
  let action ← escapeMDW (← memGet p ( "action".toList))
  let base := header ++ ( r"*Issue #".toList) ++ tmpl issueNumber
    ++ ( r": ".toList) ++ issueTitle ++ ( r"* [".toList) ++ action
    ++ ( r"](".toList) ++ tmpl issueUrl ++ [ ')' ]
  if action = ( "assigned".toList) then do
    let a ← escapeMDW (jsOr (optGet (optGet p ( "assignee".toList)) ( "login".toList))
      (.jstr ( "someone".toList)))
    .ok (base ++ ( r" to ".toList) ++ a)
  else if action = ( "labeled".toList) then do
    let l ← escapeMDW (jsOr (optGet (optGet p ( "label".toList)) ( "name".toList))
      (.jstr []))
    .ok (base ++ ( r" with label `".toList) ++ l ++ [ '`' ])
  else .ok base

/-- Case of `worker.js` `formatMessage`: `case "issue_comment"`. -/
def issueCommentCase (p : JV) (header : List Char) : Except JErr (List Char) := do
  let issue ← memGet p ( "issue".toList)
  let comment ← memGet p ( "comment".toList)
  let action ← escapeMDW (← memGet p ( "action".toList))
  let issueNumber ← memGet issue ( "number".toList)
  let issueTitle ← escapeMDW (← memGet issue ( "title".toList))
  let commentUrl ← memGet comment ( "html_url".toList)
  let bodyv ← memGet comment ( "body".toList)
  let cb0 ← escapeMDW (.jstr (← jsSubstring0M bodyv 150))
  let bl ← memGet bodyv ( "length".toList)
  let commentBody := cb0 ++ (if jsGtN bl 150 then ( r"\.\.\.".toList) else [])
  if action = ( "created".toList) then
    .ok (header ++ ( r"*New Comment* on Issue [#".toList) ++ tmpl issueNumber
      ++ [ ' ' ] ++ issueTitle ++ ( r"](".toList) ++ tmpl commentUrl
      ++ ( r")\n".toList) ++ ( r"> ".toList) ++ commentBody)
  else
    .ok (header ++ ( r"Comment ".toList) ++ action
      ++ ( r" on Issue [#".toList) ++ tmpl issueNumber ++ [ ' ' ] ++ issueTitle
      ++ ( r"](".toList) ++ tmpl commentUrl ++ [ ')' ])

/-- Case of `worker.js` `formatMessage`: `case "commit_comment"`. -/
def commitCommentCase (p : JV) (header : List Char) : Except JErr (List Char) := do
  let comment ← memGet p ( "comment".toList)
  let action ← escapeMDW (← memGet p ( "action".toList))
  let sha ← escapeMDW (.jstr (← jsSubstring0M (← memGet comment ( "commit_id".toList)) 7))
  let commentUrl ← memGet comment ( "html_url".toList)
  let bodyv ← memGet comment ( "body".toList)
  let cb0 ← escapeMDW (.jstr (← jsSubstring0M bodyv 150))
  let bl ← memGet bodyv ( "length".toList)
  let commentBody := cb0 ++ (if jsGtN bl 150 then ( r"\.\.\.".toList) else [])
  if action = ( "created".toList) then
    .ok (header ++ ( r"*New Comment* on Commit [`".toList) ++ sha
      ++ ( r"`](".toList) ++ tmpl commentUrl ++ ( r")\n".toList)
      ++ ( r"> ".toList) ++ commentBody)
  else
    .ok (header ++ ( r"Comment ".toList) ++ action
      ++ ( r" on Commit [`".toList) ++ sha ++ ( r"`](".toList)
      ++ tmpl commentUrl ++ [ ')' ])

/-- Case of `worker.js` `formatMessage`: `case "release"`. -/
def releaseCase (p : JV) (header : List Char) : Except JErr (List Char) := do
  let release ← memGet p ( "release".toList)
  let action ← escapeMDW (← memGet p ( "action".toList))
  let tagName ← escapeMDW (← memGet release ( "tag_name".toList))
  let relNameRaw ← memGet release ( "name".toList)
  let releaseName ← escapeMDW
    (jsOr relNameRaw (.jstr (( "Release ".toList) ++ tagName)))
  let releaseUrl ← memGet release ( "html_url".toList)
  let base := header ++ ( r"*Release ".toList) ++ releaseName
    ++ ( r"* (".toList) ++ tagName ++ ( r") [".toList) ++ action
    ++ ( r"](".toList) ++ tmpl releaseUrl ++ [ ')' ]
  let bodyv ← memGet release ( "body".toList)
  if action = ( "published".toList) && jsTruthy bodyv then do
    let n0 ← escapeMDW (.jstr (← jsSubstring0M bodyv 200))
    let bl ← memGet bodyv ( "length".toList)
    let notes := n0 ++ (if jsGtN bl 200 then ( r"\.\.\.".toList) else [])
    .ok (base ++ ( r"\n> ".toList) ++ notes)
  else .ok base

/-- Case of `worker.js` `formatMessage`: `case "create"`. -/
def createCase (p : JV) (header : List Char) : Except JErr (List Char) := do
  let refType ← escapeMDW (← memGet p ( "ref_type".toList))
  let refName ← escapeMDW (← memGet p ( "ref".toList))
  .ok (header ++ ( r"*Created ".toList) ++ refType ++ ( r"*: `".toList)
    ++ refName ++ [ '`' ])

/-- Case of `worker.js` `formatMessage`: `case "delete"`. -/
def deleteCase (p : JV) (header : List Char) : Except JErr (List Char) := do
  let refType ← escapeMDW (← memGet p ( "ref_type".toList))
  let refName ← escapeMDW (← memGet p ( "ref".toList))
  .ok (header ++ ( r"*Deleted ".toList) ++ refType ++ ( r"*: `".toList)
    ++ refName ++ [ '`' ])

/-- Case of `worker.js` `formatMessage`: `case "fork"`. -/
def forkCase (p : JV) (header : List Char) : Except JErr (List Char) := do
  let forkee ← memGet p ( "forkee".toList)
  let forkeeName ← escapeMDW (← memGet forkee ( "full_name".toList))
  let forkeeUrl ← memGet forkee ( "html_url".toList)
  .ok (header ++ ( r"*Forked* repository to [".toList) ++ forkeeName
    ++ ( r"](".toList) ++ tmpl forkeeUrl ++ [ ')' ])

/-- Case of `worker.js` `formatMessage`: `case "star"` (the file's emoji are the
mojibake sequences it physically contains). -/
def starCase (p : JV) (header : List Char) : Except JErr (List Char) := do
  let action ← memGet p ( "action".toList)
  if jsSEqS action ( "created".toList) then do
    let repov ← memGet p ( "repository".toList)
    let count ← memGet repov ( "stargazers_count".toList)
    let countStr ← escapeMDW (.jstr (← jsToStrM count))
    .ok (header ++ ( r"*Starred* repository ".toList) ++ starSeq
      ++ ( r" \(".toList) ++ countStr ++ ( r" total\)".toList))
  else if jsSEqS action ( "deleted".toList) then do
    let repov ← memGet p ( "repository".toList)
    let count ← memGet repov ( "stargazers_count".toList)
    let countStr ← escapeMDW (.jstr (← jsToStrM count))
    .ok (header ++ ( r"*Unstarred* repository ".toList) ++ unstarSeq
      ++ ( r" \(".toList) ++ countStr ++ ( r" total\)".toList))
  else .ok []

/-- Case of `worker.js` `formatMessage`: `case "watch"`. -/
def watchCase (p : JV) (header : List Char) : Except JErr (List Char) := do
  let action ← memGet p ( "action".toList)
  if jsSEqS action ( "started".toList) then do
    let repov ← memGet p ( "repository".toList)
    let count ← memGet repov ( "watchers_count".toList)
    let countStr ← escapeMDW (.jstr (← jsToStrM count))
    .ok (header ++ ( r"*Started Watching* repository ".toList) ++ watchSeq
      ++ ( r" \(".toList) ++ countStr ++ ( r" total\)".toList))
  else .ok []

/-- The `switch (eventType)` of `worker.js` `formatMessage`: the value of
the `message` variable after the switch (the
`pull_request_review_comment` and `discussion` cases are empty TODO
bodies, leaving the header; the default sets `message = ""`). -/
def fmtBody (ev : List Char) (p : JV) (header : List Char) :
    Except JErr (List Char) :=
  if ev = ( "push".toList) then pushCase p header
  else if ev = ( "pull_request".toList) then prCase p header
  else if ev = ( "issues".toList) then issuesCase p header
  else if ev = ( "issue_comment".toList) then issueCommentCase p header
  else if ev = ( "commit_comment".toList) then commitCommentCase p header
  else if ev = ( "release".toList) then releaseCase p header
  else if ev = ( "create".toList) then createCase p header
  else if ev = ( "delete".toList) then deleteCase p header
  else if ev = ( "fork".toList) then forkCase p header
  else if ev = ( "star".toList) then starCase p header
  else if ev = ( "watch".toList) then watchCase p header
  else if ev = ( "pull_request_review_comment".toList) then .ok header
  else if ev = ( "discussion".toList) then .ok header
  else .ok []

/-- The final guard of `worker.js` `formatMessage`: a message that is
exactly the bare header is replaced by the empty string; otherwise the
message is returned trimmed. -/
def fmtFinish (header msg : List Char) : List Char :=
  if header.isPrefixOf msg then
    (if msg.length = header.length then [] else jsTrimStr msg)
  else jsTrimStr msg

/-- Function `formatMessage(eventType, payload)` of `worker.js`. -/
def formatMessageW (ev : List Char) (p : JV) : Except JErr (List Char) := do
  let parts ← headerParts p
  let header := mkHeader parts.1 parts.2.1 parts.2.2.1 parts.2.2.2
  let msg ← fmtBody ev p header
  .ok (fmtFinish header msg)

/-- The event types with a `case` in the `worker.js` switch. -/
def recognizedW : List (List Char) :=
  [( "push".toList), ( "pull_request".toList), ( "issues".toList),
   ( "issue_comment".toList), ( "commit_comment".toList),
   ( "release".toList), ( "create".toList), ( "delete".toList),
   ( "fork".toList), ( "star".toList), ( "watch".toList),
   ( "pull_request_review_comment".toList), ( "discussion".toList)]

/-- Equality of formatter results is decidable. -/
instance : DecidableEq (Except JErr (List Char)) := fun a b =>
  match a, b with
  | .ok x, .ok y =>
    if h : x = y then .isTrue (by rw [h])
    else .isFalse (fun he => h (by cases he; rfl))
  | .error x, .error y =>
    if h : x = y then .isTrue (by rw [h])
    else .isFalse (fun he => h (by cases he; rfl))
  | .ok _, .error _ => .isFalse (fun he => by cases he)
  | .error _, .ok _ => .isFalse (fun he => by cases he)

/-- Test payload: the spec's star example
`{action:"created", repository:{full_name:"a/b"}, sender:{login:"u"}}`. -/
def starPayloadNoCount : JV :=
  .jobj [(( "action".toList), .jstr ( "created".toList)),
         (( "repository".toList), .jobj [(( "full_name".toList), .jstr ( "a/b".toList))]),
         (( "sender".toList), .jobj [(( "login".toList), .jstr ( "u".toList))])]


/-- Modelled from the spec: the per-character escaping the spec asks for
— exactly one escaping backslash in front of each backslash or reserved
character, nothing else changed. -/
def escCharSpec (c : Char) : List Char :=
  if c == bslash || isReservedMd c then [bslash, c] else [c]

/-- Modelled from the spec: single-pass escaping applying `escCharSpec`
to every character. -/
def escapeOncePerChar : List Char → List Char
  | [] => []
  | c :: t => escCharSpec c ++ escapeOncePerChar t

theorem escapeMarkdownV2W_append (a b : List Char) :
    escapeMarkdownV2W (a ++ b) = escapeMarkdownV2W a ++ escapeMarkdownV2W b := by
  induction a with
  | nil => rfl
  | cons c t ih => simp [escapeMarkdownV2W, ih]

theorem escBackslashPass_cons (c : Char) (t : List Char) :
    escBackslashPass (c :: t) =
      (if c = bslash then [bslash, bslash] else [c]) ++ escBackslashPass t := rfl

theorem escapeMarkdownV2R_cons (c : Char) (t : List Char) :
    escapeMarkdownV2R (c :: t) =
      (if c = bslash then [bslash, bslash]
       else if isReservedMd c then [bslash, c] else [c])
      ++ escapeMarkdownV2R t := by
  unfold escapeMarkdownV2R
  rw [escBackslashPass_cons]
  by_cases hb : c = bslash
  · subst hb
    rw [if_pos rfl, if_pos rfl, escapeMarkdownV2W_append]
    have hres : isReservedMd bslash = false := by decide
    simp [escapeMarkdownV2W, hres]
  · rw [if_neg hb, if_neg hb, escapeMarkdownV2W_append]
    by_cases hr : isReservedMd c <;> simp [escapeMarkdownV2W, hr]

theorem unescapeMD_cons_nonbs (c : Char) (r : List Char) (h : c ≠ bslash) :
    unescapeMD (c :: r) = c :: unescapeMD r := by
  cases r with
  | nil => rfl
  | cons d t => simp [unescapeMD, h]

theorem unescapeMD_escaped (d : Char) (r : List Char) :
    unescapeMD (bslash :: d :: r) = d :: unescapeMD r := by
  simp [unescapeMD]

theorem escapeMarkdownV2R_once (s : List Char) :
    escapeMarkdownV2R s = escapeOncePerChar s := by
  induction s with
  | nil => rfl
  | cons c t ih =>
    rw [escapeMarkdownV2R_cons, ih]
    by_cases hb : c = bslash
    · simp [escapeOncePerChar, escCharSpec, hb]
    · by_cases hr : isReservedMd c <;>
        simp [escapeOncePerChar, escCharSpec, hb, hr]

theorem unescapeMD_escapeR (s : List Char) :
    unescapeMD (escapeMarkdownV2R s) = s := by
  induction s with
  | nil => rfl
  | cons c t ih =>
    rw [escapeMarkdownV2R_cons]
    by_cases hb : c = bslash
    · rw [if_pos hb, hb]
      simpa [unescapeMD_escaped] using ih
    · rw [if_neg hb]
      by_cases hr : isReservedMd c
      · rw [if_pos hr]
        simpa [unescapeMD_escaped] using ih
      · rw [if_neg hr]
        simpa [unescapeMD_cons_nonbs c _ hb] using ih

theorem unescapeMD_escapeW_noBackslash (s : List Char)
    (h : ∀ c ∈ s, c ≠ bslash) :
    unescapeMD (escapeMarkdownV2W s) = s := by
  induction s with
  | nil => rfl
  | cons c t ih =>
    have hc : c ≠ bslash := h c (List.mem_cons_self c t)
    have ht : ∀ x ∈ t, x ≠ bslash := fun x hx => h x (List.mem_cons_of_mem c hx)
    by_cases hr : isReservedMd c
    · simpa [escapeMarkdownV2W, hr, unescapeMD_escaped] using ih ht
    · simpa [escapeMarkdownV2W, hr, unescapeMD_cons_nonbs c _ hc] using ih ht

theorem utf8Char_ascii (c : Char) (h : c.toNat < 128) : utf8Char c = [c.toNat] := by
  simp [utf8Char, h]

theorem utf8Bytes_ascii (s : List Char) (h : ∀ c ∈ s, c.toNat < 128) :
    utf8Bytes s = s.map Char.toNat := by
  induction s with
  | nil => rfl
  | cons c t ih =>
    have hc := h c (List.mem_cons_self c t)
    have ht : ∀ x ∈ t, x.toNat < 128 := fun x hx => h x (List.mem_cons_of_mem c hx)
    simp [utf8Bytes, utf8Char_ascii c hc, ih ht]

theorem jsLen16_ascii (s : List Char) (h : ∀ c ∈ s, c.toNat < 128) :
    jsLen16 s = s.length := by
  induction s with
  | nil => rfl
  | cons c t ih =>
    have hc : c.toNat < 65536 :=
      Nat.lt_trans (h c (List.mem_cons_self c t)) (by decide)
    have ht : ∀ x ∈ t, x.toNat < 128 := fun x hx => h x (List.mem_cons_of_mem c hx)
    simp [jsLen16, hc, ih ht]
    omega

theorem natXor_eq_zero_iff (a b : Nat) : a ^^^ b = 0 ↔ a = b := by
  constructor
  · intro h
    have h2 : a ^^^ b ^^^ b = 0 ^^^ b := by rw [h]
    rwa [Nat.xor_assoc, Nat.xor_self, Nat.xor_zero, Nat.zero_xor] at h2
  · intro h
    rw [h, Nat.xor_self]

theorem natOr_eq_zero_iff (a b : Nat) : a ||| b = 0 ↔ a = 0 ∧ b = 0 := by
  constructor
  · intro h
    have ha : ∀ i, a.testBit i = false := by
      intro i
      have h2 := congrArg (fun x => Nat.testBit x i) h
      simp [Nat.testBit_or] at h2
      exact h2.1
    have hb : ∀ i, b.testBit i = false := by
      intro i
      have h2 := congrArg (fun x => Nat.testBit x i) h
      simp [Nat.testBit_or] at h2
      exact h2.2
    exact ⟨Nat.eq_of_testBit_eq (fun i => by simp [ha i]),
           Nat.eq_of_testBit_eq (fun i => by simp [hb i])⟩
  · rintro ⟨rfl, rfl⟩; rfl

theorem tseFold_eq_zero_iff (as bs : List Nat) (hlen : as.length = bs.length) :
    tseFold as bs = 0 ↔ as = bs := by
  induction as generalizing bs with
  | nil =>
    cases bs with
    | nil => simp [tseFold]
    | cons b bt => simp at hlen
  | cons a at' ih =>
    cases bs with
    | nil => simp at hlen
    | cons b bt =>
      have hl : at'.length = bt.length := by simpa using hlen
      rw [show tseFold (a :: at') (b :: bt) = (a ^^^ b) ||| tseFold at' bt from rfl]
      rw [natOr_eq_zero_iff, natXor_eq_zero_iff, ih bt hl]
      constructor
      · rintro ⟨h1, h2⟩; rw [h1, h2]
      · intro h; cases h; exact ⟨rfl, rfl⟩

theorem tseFold_self (as : List Nat) : tseFold as as = 0 := by
  induction as with
  | nil => rfl
  | cons a t ih =>
    rw [show tseFold (a :: t) (a :: t) = (a ^^^ a) ||| tseFold t t from rfl]
    rw [Nat.xor_self, ih]
    rfl

theorem timingSafeEqual_self (a : List Char) : timingSafeEqual a a = true := by
  simp [timingSafeEqual, tseFold_self]

theorem timingSafeEqual_len_ne (a b : List Char) (h : jsLen16 a ≠ jsLen16 b) :
    timingSafeEqual a b = false := by
  simp [timingSafeEqual, h]

theorem timingSafeEqual_true_iff (a b : List Char) :
    timingSafeEqual a b = true ↔
      (jsLen16 a = jsLen16 b ∧ tseFold (utf8Bytes a) (utf8Bytes b) = 0) := by
  by_cases h : jsLen16 a = jsLen16 b
  · simp [timingSafeEqual, h]
  · simp [timingSafeEqual, h]

theorem charToNat_inj (a b : Char) (h : a.toNat = b.toNat) : a = b := by
  have h2 : Char.ofNat a.toNat = Char.ofNat b.toNat := by rw [h]
  rwa [Char.ofNat_toNat, Char.ofNat_toNat] at h2

theorem timingSafeEqual_ascii_iff (a b : List Char)
    (ha : ∀ c ∈ a, c.toNat < 128) (hb : ∀ c ∈ b, c.toNat < 128) :
    (timingSafeEqual a b = true ↔ a = b) := by
  rw [timingSafeEqual_true_iff, jsLen16_ascii a ha, jsLen16_ascii b hb,
    utf8Bytes_ascii a ha, utf8Bytes_ascii b hb]
  constructor
  · rintro ⟨hlen, hfold⟩
    have hml : (a.map Char.toNat).length = (b.map Char.toNat).length := by
      simpa using hlen
    have := (tseFold_eq_zero_iff _ _ hml).mp hfold
    exact List.map_injective_iff.mpr charToNat_inj this
  · rintro rfl
    exact ⟨rfl, tseFold_self _⟩

/-- The sixteen lowercase hex digit characters. -/
def lowerHexDigits : List Char := ( "0123456789abcdef".toList)

/-- Is the character a lowercase hex digit? -/
def isLowerHexDigit (c : Char) : Bool := lowerHexDigits.contains c

theorem hexDigitChar_isLowerHex : ∀ k < 16, isLowerHexDigit (hexDigitChar k) = true := by decide

theorem isLowerHexDigit_ascii : ∀ c : Char, isLowerHexDigit c = true → c.toNat < 128 := by
  intro c h
  have hm : c ∈ lowerHexDigits := by
    simpa [isLowerHexDigit] using h
  fin_cases hm <;> decide

theorem natToHex16_small (b : Nat) (h : b < 16) : natToHex16 b = [hexDigitChar b] := by
  unfold natToHex16
  cases b with
  | zero => rfl
  | succ k =>
    rw [show hexDigitsGo (k + 1) (k + 1) =
      (if k + 1 < 16 then [hexDigitChar (k + 1)]
        else hexDigitsGo k ((k + 1) / 16) ++ [hexDigitChar ((k + 1) % 16)]) from rfl]
    rw [if_pos h]

theorem natToHex16_mid (b : Nat) (h16 : 16 ≤ b) (h : b < 256) :
    natToHex16 b = [hexDigitChar (b / 16), hexDigitChar (b % 16)] := by
  obtain ⟨m, rfl⟩ : ∃ m, b = m + 2 := ⟨b - 2, by omega⟩
  unfold natToHex16
  rw [show hexDigitsGo (m + 2) (m + 2) =
    (if m + 2 < 16 then [hexDigitChar (m + 2)]
      else hexDigitsGo (m + 1) ((m + 2) / 16) ++ [hexDigitChar ((m + 2) % 16)]) from rfl]
  rw [if_neg (by omega)]
  have hd : (m + 2) / 16 < 16 := by
    have := (Nat.div_lt_iff_lt_mul (by decide : 0 < 16)).mpr (by omega : m + 2 < 16 * 16)
    exact this
  rw [show hexDigitsGo (m + 1) ((m + 2) / 16) =
    (if (m + 2) / 16 < 16 then [hexDigitChar ((m + 2) / 16)]
      else hexDigitsGo m ((m + 2) / 16 / 16) ++ [hexDigitChar ((m + 2) / 16 % 16)]) from rfl]
  rw [if_pos hd]
  rfl

theorem byteHex_eq (b : Nat) (h : b < 256) :
    byteHex b = if b < 16 then ['0', hexDigitChar b]
      else [hexDigitChar (b / 16), hexDigitChar (b % 16)] := by
  by_cases h16 : b < 16
  · rw [if_pos h16]
    unfold byteHex
    rw [natToHex16_small b h16]
    rfl
  · rw [if_neg h16]
    unfold byteHex
    rw [natToHex16_mid b (Nat.le_of_not_lt h16) h]
    rfl

theorem byteHex_length (b : Nat) (h : b < 256) : (byteHex b).length = 2 := by
  rw [byteHex_eq b h]
  by_cases h16 : b < 16 <;> simp [h16]

theorem byteHex_isLowerHex (b : Nat) (h : b < 256) :
    ∀ c ∈ byteHex b, isLowerHexDigit c = true := by
  rw [byteHex_eq b h]
  by_cases h16 : b < 16
  · rw [if_pos h16]
    intro c hc
    rcases List.mem_cons.mp hc with h1 | h1
    · subst h1; decide
    · have h2 : c = hexDigitChar b := by simpa using h1
      subst h2
      exact hexDigitChar_isLowerHex b h16
  · rw [if_neg h16]
    intro c hc
    rcases List.mem_cons.mp hc with h1 | h1
    · subst h1
      exact hexDigitChar_isLowerHex _ ((Nat.div_lt_iff_lt_mul (by decide)).mpr (by omega))
    · have h2 : c = hexDigitChar (b % 16) := by simpa using h1
      subst h2
      exact hexDigitChar_isLowerHex _ (Nat.mod_lt b (by decide))

theorem bytesToHex_length (bs : List Nat) (h : ∀ b ∈ bs, b < 256) :
    (bytesToHex bs).length = 2 * bs.length := by
  induction bs with
  | nil => rfl
  | cons b t ih =>
    have hb := h b (List.mem_cons_self b t)
    have ht : ∀ x ∈ t, x < 256 := fun x hx => h x (List.mem_cons_of_mem b hx)
    rw [show bytesToHex (b :: t) = byteHex b ++ bytesToHex t from rfl]
    simp [byteHex_length b hb, ih ht]
    omega

theorem bytesToHex_isLowerHex (bs : List Nat) (h : ∀ b ∈ bs, b < 256) :
    ∀ c ∈ bytesToHex bs, isLowerHexDigit c = true := by
  induction bs with
  | nil => intro c hc; simp [bytesToHex] at hc
  | cons b t ih =>
    have hb := h b (List.mem_cons_self b t)
    have ht : ∀ x ∈ t, x < 256 := fun x hx => h x (List.mem_cons_of_mem b hx)
    intro c hc
    rw [show bytesToHex (b :: t) = byteHex b ++ bytesToHex t from rfl] at hc
    rcases List.mem_append.mp hc with h1 | h1
    · exact byteHex_isLowerHex b hb c h1
    · exact ih ht c h1

theorem bytesToHex_ascii (bs : List Nat) (h : ∀ b ∈ bs, b < 256) :
    ∀ c ∈ bytesToHex bs, c.toNat < 128 :=
  fun c hc => isLowerHexDigit_ascii c (bytesToHex_isLowerHex bs h c hc)

theorem sha256Lit_isPrefixOf_append (x : List Char) :
    sha256Lit.isPrefixOf (sha256Lit ++ x) = true := by
  rw [List.isPrefixOf_iff_prefix]
  exact List.prefix_append _ _

theorem drop7_sha256_append (x : List Char) : (sha256Lit ++ x).drop 7 = x := by
  have hlen7 : sha256Lit.length = 7 := by decide
  rw [← hlen7, List.drop_left]

theorem verify_correct (mac : List Char → List Char → List Nat)
    (secret body : List Char) :
    verifyGitHubSignature mac secret body
      (sha256Lit ++ bytesToHex (mac secret body)) = true := by
  unfold verifyGitHubSignature
  rw [sha256Lit_isPrefixOf_append, if_pos rfl, drop7_sha256_append]
  exact timingSafeEqual_self _

theorem verify_flip (mac : List Char → List Char → List Nat)
    (secret body : List Char) (i : Nat) (c : Char)
    (hbytes : ∀ x ∈ mac secret body, x < 256)
    (hi : i < (bytesToHex (mac secret body)).length)
    (hc : c.toNat < 128)
    (hne : c ≠ (bytesToHex (mac secret body)).get ⟨i, hi⟩) :
    verifyGitHubSignature mac secret body
      (sha256Lit ++ (bytesToHex (mac secret body)).set i c) = false := by
  unfold verifyGitHubSignature
  rw [sha256Lit_isPrefixOf_append, if_pos rfl, drop7_sha256_append]
  have hasciiHx : ∀ ch ∈ bytesToHex (mac secret body), ch.toNat < 128 :=
    bytesToHex_ascii _ hbytes
  have hasciiSet : ∀ ch ∈ (bytesToHex (mac secret body)).set i c, ch.toNat < 128 :=
    fun ch hch => (List.mem_or_eq_of_mem_set hch).elim (hasciiHx ch)
      (fun he => he ▸ hc)
  have hne2 : (bytesToHex (mac secret body)).set i c ≠ bytesToHex (mac secret body) := by
    intro he
    apply hne
    have hq : ((bytesToHex (mac secret body)).set i c).get? i
        = (bytesToHex (mac secret body)).get? i := by rw [he]
    rw [show ((bytesToHex (mac secret body)).set i c).get? i = some c by
          simp [List.getElem?_set_self', hi],
        List.get?_eq_get hi] at hq
    exact Option.some.inj hq
  cases htse : timingSafeEqual ((bytesToHex (mac secret body)).set i c)
      (bytesToHex (mac secret body)) with
  | false => rfl
  | true =>
    exact absurd ((timingSafeEqual_ascii_iff _ _ hasciiSet hasciiHx).mp htse) hne2

theorem verify_wrongLen (mac : List Char → List Char → List Nat)
    (secret body sig : List Char)
    (hascii : ∀ c ∈ sig, c.toNat < 128)
    (hbytes : ∀ x ∈ mac secret body, x < 256)
    (hlen : sig.length ≠ (bytesToHex (mac secret body)).length) :
    verifyGitHubSignature mac secret body (sha256Lit ++ sig) = false := by
  unfold verifyGitHubSignature
  rw [sha256Lit_isPrefixOf_append, if_pos rfl, drop7_sha256_append]
  apply timingSafeEqual_len_ne
  rw [jsLen16_ascii sig hascii, jsLen16_ascii _ (bytesToHex_ascii _ hbytes)]
  exact hlen

theorem bytesToHex_len64 (mac : List Char → List Char → List Nat)
    (secret body : List Char)
    (hbytes : ∀ x ∈ mac secret body, x < 256)
    (h32 : (mac secret body).length = 32) :
    (bytesToHex (mac secret body)).length = 64 := by
  rw [bytesToHex_length _ hbytes, h32]

/-- Shape of the `message` variable after one switch case: untouched
header, reset to empty, or header plus a suffix starting with a
non-whitespace character. -/
def bodyShape (header msg : List Char) : Prop :=
  msg = [] ∨ msg = header ∨ ∃ c t, msg = header ++ c :: t ∧ jsWsChar c = false

theorem bind_ok {α β : Type} (x : Except JErr α) (f : α → Except JErr β)
    (b : β) (h : x >>= f = .ok b) : ∃ a, x = .ok a ∧ f a = .ok b := by
  cases x with
  | error e => simp [Bind.bind, Except.bind] at h
  | ok a => exact ⟨a, rfl, by simpa [Bind.bind, Except.bind] using h⟩


theorem forEachCommits_shape (l : List JV) (acc msg : List Char)
    (h : forEachCommits l acc = .ok msg) : ∃ t, msg = acc ++ t := by
  induction l generalizing acc with
  | nil =>
    refine ⟨[], ?_⟩
    unfold forEachCommits at h
    cases h
    simp
  | cons c rest ih =>
    unfold forEachCommits at h
    obtain ⟨line, _, h2⟩ := bind_ok _ _ _ h
    obtain ⟨t', ht'⟩ := ih (acc ++ line) h2
    exact ⟨line ++ t', by simpa [List.append_assoc] using ht'⟩

theorem bodyShape_app (header lit rest : List Char)
    (h1 : lit ≠ []) (h2 : jsWsChar lit.headI = false) :
    bodyShape header (header ++ (lit ++ rest)) := by
  cases lit with
  | nil => exact absurd rfl h1
  | cons c t =>
    exact Or.inr (Or.inr ⟨c, t ++ rest, by simp, by simpa using h2⟩)

theorem bodyShape_app1 (header lit : List Char)
    (h1 : lit ≠ []) (h2 : jsWsChar lit.headI = false) :
    bodyShape header (header ++ lit) := by
  have := bodyShape_app header lit [] h1 h2
  simpa using this

theorem pushCase_shape (p : JV) (header msg : List Char)
    (hm : pushCase p header = .ok msg) : bodyShape header msg := by
  unfold pushCase at hm
  obtain ⟨v1, _, hm⟩ := bind_ok _ _ _ hm
  obtain ⟨v2, _, hm⟩ := bind_ok _ _ _ hm
  obtain ⟨v3, _, hm⟩ := bind_ok _ _ _ hm
  obtain ⟨v4, _, hm⟩ := bind_ok _ _ _ hm
  obtain ⟨v5, _, hm⟩ := bind_ok _ _ _ hm
  obtain ⟨v6, _, hm⟩ := bind_ok _ _ _ hm
  obtain ⟨v7, _, hm⟩ := bind_ok _ _ _ hm
  obtain ⟨v8, _, hm⟩ := bind_ok _ _ _ hm
  obtain ⟨v9, _, hm⟩ := bind_ok _ _ _ hm
  split at hm
  · cases hm
    simp only [List.append_assoc]
    exact bodyShape_app _ _ _ (by decide) (by decide)
  · split at hm
    · obtain ⟨vs, _, hm⟩ := bind_ok _ _ _ hm
      obtain ⟨m1, hfold, hm⟩ := bind_ok _ _ _ hm
      obtain ⟨t, ht⟩ := forEachCommits_shape _ _ _ hfold
      split at hm <;> cases hm <;> rw [ht] <;> simp only [List.append_assoc] <;>
        exact bodyShape_app _ _ _ (by decide) (by decide)
    · obtain ⟨vd, _, hm⟩ := bind_ok _ _ _ hm
      split at hm
      · obtain ⟨rv, _, hm⟩ := bind_ok _ _ _ hm
        obtain ⟨yb, _, hm⟩ := bind_ok _ _ _ hm
        dsimp only [] at hm
        split at hm
        · cases hm
          exact Or.inl rfl
        · cases hm
          simp only [List.append_assoc]
          exact bodyShape_app _ _ _ (by decide) (by decide)
      · obtain ⟨yb, _, hm⟩ := bind_ok _ _ _ hm
        dsimp only [] at hm
        split at hm
        · cases hm
          exact Or.inl rfl
        · cases hm
          simp only [List.append_assoc]
          exact bodyShape_app _ _ _ (by decide) (by decide)

theorem prCase_shape (p : JV) (header msg : List Char)
    (hm : prCase p header = .ok msg) : bodyShape header msg := by
  unfold prCase at hm
  obtain ⟨v1, _, hm⟩ := bind_ok _ _ _ hm
  obtain ⟨v2, _, hm⟩ := bind_ok _ _ _ hm
  obtain ⟨v3, _, hm⟩ := bind_ok _ _ _ hm
  obtain ⟨v4, _, hm⟩ := bind_ok _ _ _ hm
  obtain ⟨v5, _, hm⟩ := bind_ok _ _ _ hm
  obtain ⟨v6, _, hm⟩ := bind_ok _ _ _ hm
  obtain ⟨v7, _, hm⟩ := bind_ok _ _ _ hm
  obtain ⟨v8, _, hm⟩ := bind_ok _ _ _ hm
  dsimp only [] at hm
  split at hm
  · cases hm
    simp only [List.append_assoc]
    exact bodyShape_app _ _ _ (by decide) (by decide)
  · split at hm
    · obtain ⟨va, _, hm⟩ := bind_ok _ _ _ hm
      cases hm
      simp only [List.append_assoc]
      exact bodyShape_app _ _ _ (by decide) (by decide)
    · split at hm
      · obtain ⟨vl, _, hm⟩ := bind_ok _ _ _ hm
        cases hm
        simp only [List.append_assoc]
        exact bodyShape_app _ _ _ (by decide) (by decide)
      · cases hm
        simp only [List.append_assoc]
        exact bodyShape_app _ _ _ (by decide) (by decide)

theorem issuesCase_shape (p : JV) (header msg : List Char)
    (hm : issuesCase p header = .ok msg) : bodyShape header msg := by
  unfold issuesCase at hm
  obtain ⟨v1, _, hm⟩ := bind_ok _ _ _ hm
  obtain ⟨v2, _, hm⟩ := bind_ok _ _ _ hm
  obtain ⟨v3, _, hm⟩ := bind_ok _ _ _ hm
  obtain ⟨v4, _, hm⟩ := bind_ok _ _ _ hm
  obtain ⟨v5, _, hm⟩ := bind_ok _ _ _ hm
  obtain ⟨v6, _, hm⟩ := bind_ok _ _ _ hm
  obtain ⟨v7, _, hm⟩ := bind_ok _ _ _ hm
  dsimp only [] at hm
  split at hm
  · obtain ⟨va, _, hm⟩ := bind_ok _ _ _ hm
    cases hm
    simp only [List.append_assoc]
    exact bodyShape_app _ _ _ (by decide) (by decide)
  · split at hm
    · obtain ⟨vl, _, hm⟩ := bind_ok _ _ _ hm
      cases hm
      simp only [List.append_assoc]
      exact bodyShape_app _ _ _ (by decide) (by decide)
    · cases hm
      simp only [List.append_assoc]
      exact bodyShape_app _ _ _ (by decide) (by decide)

theorem issueCommentCase_shape (p : JV) (header msg : List Char)
    (hm : issueCommentCase p header = .ok msg) : bodyShape header msg := by
  unfold issueCommentCase at hm
  obtain ⟨v1, _, hm⟩ := bind_ok _ _ _ hm
  obtain ⟨v2, _, hm⟩ := bind_ok _ _ _ hm
  obtain ⟨v3, _, hm⟩ := bind_ok _ _ _ hm
  obtain ⟨v4, _, hm⟩ := bind_ok _ _ _ hm
  obtain ⟨v5, _, hm⟩ := bind_ok _ _ _ hm
  obtain ⟨v6, _, hm⟩ := bind_ok _ _ _ hm
  obtain ⟨v7, _, hm⟩ := bind_ok _ _ _ hm
  obtain ⟨v8, _, hm⟩ := bind_ok _ _ _ hm
  obtain ⟨v9, _, hm⟩ := bind_ok _ _ _ hm
  obtain ⟨v10, _, hm⟩ := bind_ok _ _ _ hm
  obtain ⟨v11, _, hm⟩ := bind_ok _ _ _ hm
  obtain ⟨v12, _, hm⟩ := bind_ok _ _ _ hm
  dsimp only [] at hm
  split at hm <;> cases hm <;> simp only [List.append_assoc] <;>
    exact bodyShape_app _ _ _ (by decide) (by decide)

theorem commitCommentCase_shape (p : JV) (header msg : List Char)
    (hm : commitCommentCase p header = .ok msg) : bodyShape header msg := by
  unfold commitCommentCase at hm
  obtain ⟨v1, _, hm⟩ := bind_ok _ _ _ hm
  obtain ⟨v2, _, hm⟩ := bind_ok _ _ _ hm
  obtain ⟨v3, _, hm⟩ := bind_ok _ _ _ hm
  obtain ⟨v4, _, hm⟩ := bind_ok _ _ _ hm
  obtain ⟨v5, _, hm⟩ := bind_ok _ _ _ hm
  obtain ⟨v6, _, hm⟩ := bind_ok _ _ _ hm
  obtain ⟨v7, _, hm⟩ := bind_ok _ _ _ hm
  obtain ⟨v8, _, hm⟩ := bind_ok _ _ _ hm
  obtain ⟨v9, _, hm⟩ := bind_ok _ _ _ hm
  obtain ⟨v10, _, hm⟩ := bind_ok _ _ _ hm
  obtain ⟨v11, _, hm⟩ := bind_ok _ _ _ hm
  dsimp only [] at hm
  split at hm <;> cases hm <;> simp only [List.append_assoc] <;>
    exact bodyShape_app _ _ _ (by decide) (by decide)

theorem releaseCase_shape (p : JV) (header msg : List Char)
    (hm : releaseCase p header = .ok msg) : bodyShape header msg := by
  unfold releaseCase at hm
  obtain ⟨v1, _, hm⟩ := bind_ok _ _ _ hm
  obtain ⟨v2, _, hm⟩ := bind_ok _ _ _ hm
  obtain ⟨v3, _, hm⟩ := bind_ok _ _ _ hm
  obtain ⟨v4, _, hm⟩ := bind_ok _ _ _ hm
  obtain ⟨v5, _, hm⟩ := bind_ok _ _ _ hm
  obtain ⟨v6, _, hm⟩ := bind_ok _ _ _ hm
  obtain ⟨v7, _, hm⟩ := bind_ok _ _ _ hm
  obtain ⟨v8, _, hm⟩ := bind_ok _ _ _ hm
  obtain ⟨v9, _, hm⟩ := bind_ok _ _ _ hm
  dsimp only [] at hm
  split at hm
  · obtain ⟨w1, _, hm⟩ := bind_ok _ _ _ hm
    obtain ⟨w2, _, hm⟩ := bind_ok _ _ _ hm
    obtain ⟨w3, _, hm⟩ := bind_ok _ _ _ hm
    cases hm
    simp only [List.append_assoc]
    exact bodyShape_app _ _ _ (by decide) (by decide)
  · cases hm
    simp only [List.append_assoc]
    exact bodyShape_app _ _ _ (by decide) (by decide)

theorem createCase_shape (p : JV) (header msg : List Char)
    (hm : createCase p header = .ok msg) : bodyShape header msg := by
  unfold createCase at hm
  obtain ⟨v1, _, hm⟩ := bind_ok _ _ _ hm
  obtain ⟨v2, _, hm⟩ := bind_ok _ _ _ hm
  obtain ⟨v3, _, hm⟩ := bind_ok _ _ _ hm
  obtain ⟨v4, _, hm⟩ := bind_ok _ _ _ hm
  cases hm
  simp only [List.append_assoc]
  exact bodyShape_app _ _ _ (by decide) (by decide)

theorem deleteCase_shape (p : JV) (header msg : List Char)
    (hm : deleteCase p header = .ok msg) : bodyShape header msg := by
  unfold deleteCase at hm
  obtain ⟨v1, _, hm⟩ := bind_ok _ _ _ hm
  obtain ⟨v2, _, hm⟩ := bind_ok _ _ _ hm
  obtain ⟨v3, _, hm⟩ := bind_ok _ _ _ hm
  obtain ⟨v4, _, hm⟩ := bind_ok _ _ _ hm
  cases hm
  simp only [List.append_assoc]
  exact bodyShape_app _ _ _ (by decide) (by decide)

theorem forkCase_shape (p : JV) (header msg : List Char)
    (hm : forkCase p header = .ok msg) : bodyShape header msg := by
  unfold forkCase at hm
  obtain ⟨v1, _, hm⟩ := bind_ok _ _ _ hm
  obtain ⟨v2, _, hm⟩ := bind_ok _ _ _ hm
  obtain ⟨v3, _, hm⟩ := bind_ok _ _ _ hm
  obtain ⟨v4, _, hm⟩ := bind_ok _ _ _ hm
  cases hm
  simp only [List.append_assoc]
  exact bodyShape_app _ _ _ (by decide) (by decide)

theorem starCase_shape (p : JV) (header msg : List Char)
    (hm : starCase p header = .ok msg) : bodyShape header msg := by
  unfold starCase at hm
  obtain ⟨v1, _, hm⟩ := bind_ok _ _ _ hm
  split at hm
  · obtain ⟨w1, _, hm⟩ := bind_ok _ _ _ hm
    obtain ⟨w2, _, hm⟩ := bind_ok _ _ _ hm
    obtain ⟨w3, _, hm⟩ := bind_ok _ _ _ hm
    obtain ⟨w4, _, hm⟩ := bind_ok _ _ _ hm
    cases hm
    simp only [List.append_assoc]
    exact bodyShape_app _ _ _ (by decide) (by decide)
  · split at hm
    · obtain ⟨w1, _, hm⟩ := bind_ok _ _ _ hm
      obtain ⟨w2, _, hm⟩ := bind_ok _ _ _ hm
      obtain ⟨w3, _, hm⟩ := bind_ok _ _ _ hm
      obtain ⟨w4, _, hm⟩ := bind_ok _ _ _ hm
      cases hm
      simp only [List.append_assoc]
      exact bodyShape_app _ _ _ (by decide) (by decide)
    · cases hm
      exact Or.inl rfl

theorem watchCase_shape (p : JV) (header msg : List Char)
    (hm : watchCase p header = .ok msg) : bodyShape header msg := by
  unfold watchCase at hm
  obtain ⟨v1, _, hm⟩ := bind_ok _ _ _ hm
  split at hm
  · obtain ⟨w1, _, hm⟩ := bind_ok _ _ _ hm
    obtain ⟨w2, _, hm⟩ := bind_ok _ _ _ hm
    obtain ⟨w3, _, hm⟩ := bind_ok _ _ _ hm
    obtain ⟨w4, _, hm⟩ := bind_ok _ _ _ hm
    cases hm
    simp only [List.append_assoc]
    exact bodyShape_app _ _ _ (by decide) (by decide)
  · cases hm
    exact Or.inl rfl

theorem fmtBody_shape (ev : List Char) (p : JV) (header msg : List Char)
    (hm : fmtBody ev p header = .ok msg) : bodyShape header msg := by
  unfold fmtBody at hm
  by_cases h1 : ev = ( "push".toList)
  · rw [if_pos h1] at hm
    exact pushCase_shape p header msg hm
  rw [if_neg h1] at hm
  by_cases h2 : ev = ( "pull_request".toList)
  · rw [if_pos h2] at hm
    exact prCase_shape p header msg hm
  rw [if_neg h2] at hm
  by_cases h3 : ev = ( "issues".toList)
  · rw [if_pos h3] at hm
    exact issuesCase_shape p header msg hm
  rw [if_neg h3] at hm
  by_cases h4 : ev = ( "issue_comment".toList)
  · rw [if_pos h4] at hm
    exact issueCommentCase_shape p header msg hm
  rw [if_neg h4] at hm
  by_cases h5 : ev = ( "commit_comment".toList)
  · rw [if_pos h5] at hm
    exact commitCommentCase_shape p header msg hm
  rw [if_neg h5] at hm
  by_cases h6 : ev = ( "release".toList)
  · rw [if_pos h6] at hm
    exact releaseCase_shape p header msg hm
  rw [if_neg h6] at hm
  by_cases h7 : ev = ( "create".toList)
  · rw [if_pos h7] at hm
    exact createCase_shape p header msg hm
  rw [if_neg h7] at hm
  by_cases h8 : ev = ( "delete".toList)
  · rw [if_pos h8] at hm
    exact deleteCase_shape p header msg hm
  rw [if_neg h8] at hm
  by_cases h9 : ev = ( "fork".toList)
  · rw [if_pos h9] at hm
    exact forkCase_shape p header msg hm
  rw [if_neg h9] at hm
  by_cases h10 : ev = ( "star".toList)
  · rw [if_pos h10] at hm
    exact starCase_shape p header msg hm
  rw [if_neg h10] at hm
  by_cases h11 : ev = ( "watch".toList)
  · rw [if_pos h11] at hm
    exact watchCase_shape p header msg hm
  rw [if_neg h11] at hm
  by_cases h12 : ev = ( "pull_request_review_comment".toList)
  · rw [if_pos h12] at hm
    cases hm
    exact Or.inr (Or.inl rfl)
  rw [if_neg h12] at hm
  by_cases h13 : ev = ( "discussion".toList)
  · rw [if_pos h13] at hm
    cases hm
    exact Or.inr (Or.inl rfl)
  rw [if_neg h13] at hm
  cases hm
  exact Or.inl rfl

theorem dropWhile_ne_nil_of_mem (q : Char → Bool) (l : List Char) (x : Char)
    (hx : x ∈ l) (hqx : q x = false) : l.dropWhile q ≠ [] := by
  induction l with
  | nil => simp at hx
  | cons a t ih =>
    rw [List.dropWhile_cons]
    by_cases ha : q a = true
    · rw [if_pos ha]
      rcases List.mem_cons.mp hx with h1 | h1
      · subst h1
        rw [hqx] at ha
        cases ha
      · exact ih h1
    · rw [if_neg ha]
      simp

theorem dropWhile_append_left (q : Char → Bool) (a b : List Char)
    (h : a.dropWhile q ≠ []) : (a ++ b).dropWhile q = a.dropWhile q ++ b := by
  induction a with
  | nil => exact absurd rfl h
  | cons c t ih =>
    rw [List.cons_append, List.dropWhile_cons, List.dropWhile_cons]
    by_cases hc : q c = true
    · rw [if_pos hc, if_pos hc]
      rw [List.dropWhile_cons, if_pos hc] at h
      exact ih h
    · rw [if_neg hc, if_neg hc]
      simp

theorem jsTrimStr_of_shape (hd : Char) (hdt : List Char) (c : Char) (t : List Char)
    (hhd : jsWsChar hd = false) (hc : jsWsChar c = false) :
    ∃ r, r ≠ [] ∧ jsTrimStr ((hd :: hdt) ++ c :: t) = (hd :: hdt) ++ r := by
  unfold jsTrimStr
  rw [List.cons_append, List.dropWhile_cons, if_neg (by simp [hhd]),
    ← List.cons_append, List.reverse_append]
  have hdrop : (c :: t).reverse.dropWhile jsWsChar ≠ [] :=
    dropWhile_ne_nil_of_mem jsWsChar _ c (by simp) hc
  rw [dropWhile_append_left jsWsChar _ _ hdrop, List.reverse_append,
    List.reverse_reverse]
  exact ⟨((c :: t).reverse.dropWhile jsWsChar).reverse, by simpa using hdrop, rfl⟩

theorem isPrefixOf_self_append (a x : List Char) : a.isPrefixOf (a ++ x) = true := by
  rw [List.isPrefixOf_iff_prefix]
  exact List.prefix_append a x

theorem fmtFinish_of_bodyShape (ht : List Char) (msg : List Char)
    (hs : bodyShape ('*' :: ht) msg) :
    fmtFinish ('*' :: ht) msg = [] ∨
      ∃ r, r ≠ [] ∧ fmtFinish ('*' :: ht) msg = ('*' :: ht) ++ r := by
  rcases hs with h1 | h1 | h1
  · subst h1
    left
    unfold fmtFinish
    rw [show ((('*' :: ht).isPrefixOf ([] : List Char)) = false) from rfl]
    simp [jsTrimStr]
  · subst h1
    left
    have hpre : ('*' :: ht).isPrefixOf ('*' :: ht) = true := by
      rw [List.isPrefixOf_iff_prefix]
    unfold fmtFinish
    rw [hpre, if_pos rfl, if_pos rfl]
  · obtain ⟨c, t, rfl, hw⟩ := h1
    unfold fmtFinish
    rw [isPrefixOf_self_append]
    have hlen : (('*' :: ht) ++ c :: t).length ≠ ('*' :: ht).length := by
      simp
    rw [if_pos rfl, if_neg hlen]
    obtain ⟨r, hr, htrim⟩ := jsTrimStr_of_shape '*' ht c t (by decide) hw
    exact Or.inr ⟨r, hr, htrim⟩

theorem mkHeader_head (rn ru sn su : List Char) :
    mkHeader rn ru sn su = '*' ::
      (( r"Repo:* [".toList) ++ rn ++ ( r"](".toList) ++ ru
        ++ ( r") \| *By:* [".toList) ++ sn ++ ( r"](".toList) ++ su
        ++ ( r")\n".toList)) := by
  unfold mkHeader
  rw [show ( r"*Repo:* [".toList) = '*' :: ( r"Repo:* [".toList) from by decide]
  simp

theorem memGet_not_nullish (p : JV) (k : List Char) (h : isNullish p = false) :
    memGet p k = .ok (optGet p k) := by
  cases p <;> simp_all [isNullish, memGet, optGet] <;> split <;> rfl

theorem fmtFinish_nil (t : List Char) : fmtFinish ('*' :: t) [] = [] := by
  unfold fmtFinish
  rw [show (('*' :: t).isPrefixOf ([] : List Char)) = false from rfl]
  simp [jsTrimStr]

theorem fmtBody_unrecognized (ev : List Char) (p : JV) (header : List Char)
    (hnot : ev ∉ recognizedW) : fmtBody ev p header = .ok [] := by
  have hne : ∀ l ∈ recognizedW, ev ≠ l := fun l hl he => hnot (he ▸ hl)
  unfold fmtBody
  rw [if_neg (hne _ (by decide)), if_neg (hne _ (by decide)),
    if_neg (hne _ (by decide)), if_neg (hne _ (by decide)),
    if_neg (hne _ (by decide)), if_neg (hne _ (by decide)),
    if_neg (hne _ (by decide)), if_neg (hne _ (by decide)),
    if_neg (hne _ (by decide)), if_neg (hne _ (by decide)),
    if_neg (hne _ (by decide)), if_neg (hne _ (by decide)),
    if_neg (hne _ (by decide))]

/-- C9 — In the `worker.js` version, every non-empty string returned
by `formatMessage` begins with the repository/sender header line
`*Repo:* [<repo>](<url>) \| *By:* [<sender>](<url>)\n` (built by
`headerParts`/`mkHeader`, with `Unknown Repo`/`Unknown User` and `#`
defaults when fields are absent), followed by a non-empty remainder —
a header-only message is never produced (it is replaced by the empty
string). -/
theorem C9_header_invariant :
    (∀ (ev : List Char) (p : JV) (m : List Char),
      formatMessageW ev p = .ok m →
      m = [] ∨ ∃ rn ru sn su r, headerParts p = .ok (rn, ru, sn, su) ∧
        r ≠ [] ∧ m = mkHeader rn ru sn su ++ r)
    ∧ headerParts (.jobj []) =
        .ok (( "Unknown Repo".toList), [ '#' ], ( "Unknown User".toList), [ '#' ]) := by
  constructor
  · intro ev p m hm
    unfold formatMessageW at hm
    obtain ⟨parts, hp, hm⟩ := bind_ok _ _ _ hm
    obtain ⟨rn, ru, sn, su⟩ := parts
    obtain ⟨msg, hb, hm⟩ := bind_ok _ _ _ hm
    have hshape := fmtBody_shape ev p _ msg hb
    rw [mkHeader_head] at hshape
    have hfin := fmtFinish_of_bodyShape _ msg hshape
    have hmv : m = fmtFinish (mkHeader rn ru sn su) msg := by
      cases hm
      rfl
    rw [mkHeader_head] at hmv
    rcases hfin with h1 | ⟨r, hr, h1⟩
    · left
      rw [hmv, h1]
    · right
      refine ⟨rn, ru, sn, su, r, hp, hr, ?_⟩
      rw [hmv, h1, mkHeader_head]
  · rfl

/-- Witness for C9 at a concrete input: the `create` event on the star
test payload yields a non-empty message, which the theorem decomposes
into header plus non-empty remainder. -/
theorem C9_header_invariant_witness :
    (( r"*Repo:* [a/b](#) \| *By:* [u](#)\n*Created *: ``".toList) = [] ∨
      ∃ rn ru sn su r, headerParts starPayloadNoCount = .ok (rn, ru, sn, su) ∧
        r ≠ [] ∧ ( r"*Repo:* [a/b](#) \| *By:* [u](#)\n*Created *: ``".toList)
          = mkHeader rn ru sn su ++ r) :=
  C9_header_invariant.1 ( "create".toList) starPayloadNoCount _ (by decide)

/-- Can `escapeMarkdownV2` accept this value without throwing?
(Falsy values and strings only.) -/
def escapableJV (v : JV) : Bool :=
  !(jsTruthy v) ||
  (match v with
   | .jstr _ => true
   | _ => false)

/-- Test payload whose repository `full_name` is a number: a truthy
non-string reaches `text.replace` inside `escapeMarkdownV2` and throws. -/
def badRepoPayload : JV :=
  .jobj [(( "repository".toList), .jobj [(( "full_name".toList), .jnum 5)])]

/-- C5 counterexample — the claim "for every event type outside the
recognized set and every payload object, formatMessage returns the empty
string and never throws" fails at the unrecognized event `"zzz"` with
payload `{repository: {full_name: 5}}`: the shared header code calls
`escapeMarkdownV2` on the number `5`, which throws a TypeError instead
of returning a string. -/
theorem C5_unrecognized_cex :
    formatMessageW ( "zzz".toList) badRepoPayload = .error .typeError ∧
    ( "zzz".toList) ∉ recognizedW := by
  constructor
  · decide
  · decide

/-- C5 (amended) — for every event type outside the recognized set,
`formatMessage` returns the empty string and never throws, provided the
payload is not nullish and its `repository?.full_name` and
`sender?.login` fields (after the `Unknown Repo`/`Unknown User`
defaults) are values `escapeMarkdownV2` accepts — i.e. each is falsy or
a string.  (A truthy non-string in either field throws even on the
default path, as the counterexample shows.) -/
theorem C5_unrecognized_returns_empty :
    ∀ (ev : List Char) (p : JV) (rnv snv : List Char),
      ev ∉ recognizedW → isNullish p = false →
      escapeMDW (jsOr (optGet (optGet p ( "repository".toList)) ( "full_name".toList))
        (.jstr ( "Unknown Repo".toList))) = .ok rnv →
      escapeMDW (jsOr (optGet (optGet p ( "sender".toList)) ( "login".toList))
        (.jstr ( "Unknown User".toList))) = .ok snv →
      formatMessageW ev p = .ok [] := by
  intro ev p rnv snv hnot hnn hr hs
  unfold formatMessageW headerParts
  rw [memGet_not_nullish p ( "repository".toList) hnn,
    memGet_not_nullish p ( "sender".toList) hnn]
  simp only [Bind.bind, Except.bind]
  rw [hr, hs]
  dsimp only []
  rw [fmtBody_unrecognized ev p _ hnot]
  dsimp only []
  rw [mkHeader_head, fmtFinish_nil]

/-- Witness for C5 at a concrete input: the unrecognized event `"zzz"`
with the empty object payload yields the empty string. -/
theorem C5_unrecognized_returns_empty_witness :
    formatMessageW ( "zzz".toList) (.jobj []) = .ok [] :=
  C5_unrecognized_returns_empty ( "zzz".toList) (.jobj [])
    ( "Unknown Repo".toList) ( "Unknown User".toList)
    (by decide) (by decide) (by decide) (by decide)

/-- A well-formed commit record of a push payload (id, message, author
name, url all strings, as GitHub sends them). -/
structure CommitR where
  cid : List Char
  cmsg : List Char
  cauthor : List Char
  curl : List Char

/-- The JSON object of a commit record. -/
def commitToJV (c : CommitR) : JV :=
  .jobj [(( "id".toList), .jstr c.cid),
         (( "message".toList), .jstr c.cmsg),
         (( "author".toList), .jobj [(( "name".toList), .jstr c.cauthor)]),
         (( "url".toList), .jstr c.curl)]

/-- A push payload without repository/sender context (header defaults
apply). -/
def mkPushPayload (ref : List Char) (commits : List JV) (forced deleted : JV)
    (compare : List Char) : JV :=
  .jobj [(( "ref".toList), .jstr ref),
         (( "commits".toList), .jarr commits),
         (( "forced".toList), forced),
         (( "deleted".toList), deleted),
         (( "compare".toList), .jstr compare)]

/-- The line the push handler emits for one listed commit: escaped
7-character short SHA, the commit URL, the escaped first line of the
message, and the escaped author name. -/
def renderedCommitLine (c : CommitR) : List Char :=
  ( r"  \- [".toList) ++ escapeMarkdownV2W (c.cid.take 7) ++ ( r"](".toList)
  ++ c.curl ++ ( r") ".toList)
  ++ escapeMarkdownV2W (c.cmsg.takeWhile (fun x => x ≠ nlChar))
  ++ ( r" \- _".toList) ++ escapeMarkdownV2W c.cauthor ++ ( r"_\n".toList)

/-- The count line of the push handler for `n` commits. -/
def pushedCountLine (n : Nat) (branch compare : List Char) : List Char :=
  ( r"*Pushed ".toList) ++ intToStr n ++ ( r" commit".toList)
  ++ (if 1 < (n : Int) then [ 's' ] else [])
  ++ ( r"* to branch `".toList) ++ branch
  ++ ( r"`\. [Compare changes](".toList) ++ compare ++ ( r")\n".toList)

/-- The truncation suffix `... and k more`. -/
def moreLine (k : Int) : List Char :=
  ( r"  \.\.\. and ".toList) ++ intToStr k ++ ( r" more\.\n".toList)

theorem escapeMDW_jstr (s : List Char) :
    escapeMDW (.jstr s) = .ok (escapeMarkdownV2W s) := by
  cases s with
  | nil => rfl
  | cons c t => rfl

theorem escapeMDW_author (a : List Char) :
    escapeMDW (jsOr (.jstr a) .undefV) = .ok (escapeMarkdownV2W a) := by
  cases a with
  | nil => rfl
  | cons c t => rfl

theorem jsReplaceOnce_self_append (pat rest : List Char) (h : pat ≠ []) :
    jsReplaceOnce pat [] (pat ++ rest) = rest := by
  cases pat with
  | nil => exact absurd rfl h
  | cons c p =>
    have hcond : (c :: p).isPrefixOf (c :: (p ++ rest)) = true := by
      rw [← List.cons_append]
      exact isPrefixOf_self_append _ _
    rw [List.cons_append]
    unfold jsReplaceOnce
    rw [if_pos hcond]
    simp only [List.nil_append, List.length_cons, List.drop_succ_cons]
    exact List.drop_left p rest

theorem renderCommitLine_eval (c : CommitR) :
    renderCommitLine (commitToJV c) = .ok (renderedCommitLine c) := by
  have h1 : memGet (commitToJV c) ( "message".toList) = .ok (.jstr c.cmsg) := rfl
  have h2 : jsSplitNl0M (.jstr c.cmsg)
      = .ok (c.cmsg.takeWhile (fun x => x ≠ nlChar)) := rfl
  have h3 : memGet (commitToJV c) ( "id".toList) = .ok (.jstr c.cid) := rfl
  have h4 : jsSubstring0M (.jstr c.cid) 7 = .ok (c.cid.take 7) := rfl
  have h5 : memGet (commitToJV c) ( "url".toList) = .ok (.jstr c.curl) := rfl
  have h6 : memGet (commitToJV c) ( "author".toList)
      = .ok (.jobj [(( "name".toList), .jstr c.cauthor)]) := rfl
  have h7 : memGet (.jobj [(( "name".toList), .jstr c.cauthor)]) ( "name".toList)
      = .ok (.jstr c.cauthor) := rfl
  have h8 : memGet (.jobj [(( "name".toList), .jstr c.cauthor)]) ( "username".toList)
      = .ok .undefV := rfl
  unfold renderCommitLine
  simp only [h1, h2, h3, h4, h5, h6, h7, h8, escapeMDW_jstr, escapeMDW_author,
    Bind.bind, Except.bind]
  rfl

theorem forEachCommits_eval (cs : List CommitR) (acc : List Char) :
    forEachCommits (cs.map commitToJV) acc
      = .ok (acc ++ (cs.map renderedCommitLine).flatten) := by
  induction cs generalizing acc with
  | nil => simp [forEachCommits]
  | cons c t ih =>
    rw [List.map_cons]
    unfold forEachCommits
    rw [renderCommitLine_eval]
    simp only [Bind.bind, Except.bind]
    rw [ih (acc ++ renderedCommitLine c)]
    simp [List.append_assoc]

theorem pushCase_commits_eval (b compare header : List Char) (cs : List CommitR)
    (hcs : cs ≠ []) :
    pushCase (mkPushPayload (( "refs/heads/".toList) ++ b)
        (cs.map commitToJV) (.jbool false) .undefV compare) header
      = .ok (header
        ++ pushedCountLine cs.length
            (escapeMarkdownV2W (jsReplaceOnce ( "refs/tags/".toList) [] b)) compare
        ++ ((cs.take 3).map renderedCommitLine).flatten
        ++ (if 3 < (cs.length : Int) then moreLine ((cs.length : Int) - 3) else [])) := by
  have href : memGet (mkPushPayload (( "refs/heads/".toList) ++ b)
      (cs.map commitToJV) (.jbool false) .undefV compare) ( "ref".toList)
      = .ok (.jstr (( "refs/heads/".toList) ++ b)) := rfl
  have hcom : memGet (mkPushPayload (( "refs/heads/".toList) ++ b)
      (cs.map commitToJV) (.jbool false) .undefV compare) ( "commits".toList)
      = .ok (.jarr (cs.map commitToJV)) := rfl
  have hcmp : memGet (mkPushPayload (( "refs/heads/".toList) ++ b)
      (cs.map commitToJV) (.jbool false) .undefV compare) ( "compare".toList)
      = .ok (.jstr compare) := rfl
  have hfor : memGet (mkPushPayload (( "refs/heads/".toList) ++ b)
      (cs.map commitToJV) (.jbool false) .undefV compare) ( "forced".toList)
      = .ok (.jbool false) := rfl
  have hrpm : jsReplaceM (.jstr (( "refs/heads/".toList) ++ b))
      ( "refs/heads/".toList) [] = .ok b := by
    rw [show jsReplaceM (.jstr (( "refs/heads/".toList) ++ b)) ( "refs/heads/".toList) []
      = .ok (jsReplaceOnce ( "refs/heads/".toList) [] (( "refs/heads/".toList) ++ b)) from rfl]
    rw [jsReplaceOnce_self_append _ _ (by decide)]
  have hjor : jsOr (.jarr (cs.map commitToJV)) (.jarr []) = .jarr (cs.map commitToJV) := rfl
  have hlen : memGet (.jarr (cs.map commitToJV)) ( "length".toList)
      = .ok (.jnum ((cs.map commitToJV).length : Nat)) := rfl
  have hslice : jsSliceArr (.jarr (cs.map commitToJV))
      = .ok ((cs.map commitToJV).take 3) := rfl
  have hcond1 : (jsSEqN (.jnum ((cs.map commitToJV).length : Nat)) 0
      && jsTruthy (.jbool false)) = false := by
    simp [jsTruthy]
  have hcond2 : jsGtN (.jnum ((cs.map commitToJV).length : Nat)) 0 = true := by
    simp [jsGtN, List.length_map]
    exact_mod_cast List.length_pos.mpr hcs
  have htake : (cs.map commitToJV).take 3 = (cs.take 3).map commitToJV := by
    rw [List.map_take]
  unfold pushCase
  simp only [href, hcom, hcmp, hfor, escapeMDW_jstr, hrpm, hjor, hlen, hslice,
    hcond1, hcond2, htake, Bind.bind, Except.bind, Bool.false_eq_true, if_false,
    if_true, forEachCommits_eval]
  rw [show jsGtN (.jnum ((cs.map commitToJV).length : Nat)) 1
    = decide ((1 : Int) < ((cs.map commitToJV).length : Nat)) from rfl]
  rw [show jsGtN (.jnum ((cs.map commitToJV).length : Nat)) 3
    = decide ((3 : Int) < ((cs.map commitToJV).length : Nat)) from rfl]
  unfold pushedCountLine moreLine tmpl jvSubN
  simp only [decide_eq_true_eq, List.length_map]
  by_cases h3 : (3 : Int) < (cs.length : Int)
  · rw [if_pos h3, if_pos h3]
    simp [List.append_assoc, intToStr]
  · rw [if_neg h3, if_neg h3]
    simp [List.append_assoc, intToStr]

theorem pushCase_tagdel_eval (tg compare header : List Char) :
    pushCase (mkPushPayload (( "refs/tags/".toList) ++ tg) [] (.jbool false)
      (.jbool true) compare) header = .ok [] := by
  have h1 : memGet (mkPushPayload (( "refs/tags/".toList) ++ tg) [] (.jbool false)
      (.jbool true) compare) ( "ref".toList)
      = .ok (.jstr (( "refs/tags/".toList) ++ tg)) := rfl
  have h2 : memGet (mkPushPayload (( "refs/tags/".toList) ++ tg) [] (.jbool false)
      (.jbool true) compare) ( "commits".toList) = .ok (.jarr []) := rfl
  have h3 : memGet (mkPushPayload (( "refs/tags/".toList) ++ tg) [] (.jbool false)
      (.jbool true) compare) ( "compare".toList) = .ok (.jstr compare) := rfl
  have h4 : memGet (mkPushPayload (( "refs/tags/".toList) ++ tg) [] (.jbool false)
      (.jbool true) compare) ( "forced".toList) = .ok (.jbool false) := rfl
  have h5 : memGet (mkPushPayload (( "refs/tags/".toList) ++ tg) [] (.jbool false)
      (.jbool true) compare) ( "deleted".toList) = .ok (.jbool true) := rfl
  have h6 : jsReplaceM (.jstr (( "refs/tags/".toList) ++ tg)) ( "refs/heads/".toList) []
      = .ok (jsReplaceOnce ( "refs/heads/".toList) [] (( "refs/tags/".toList) ++ tg)) := rfl
  have h7 : jsStartsWithM (.jstr (( "refs/tags/".toList) ++ tg)) ( "refs/tags/".toList)
      = .ok true := by
    rw [show jsStartsWithM (.jstr (( "refs/tags/".toList) ++ tg)) ( "refs/tags/".toList)
      = .ok (( "refs/tags/".toList).isPrefixOf (( "refs/tags/".toList) ++ tg)) from rfl]
    rw [isPrefixOf_self_append]
  have h8 : memGet (.jarr []) ( "length".toList) = .ok (.jnum (0 : Nat)) := rfl
  unfold pushCase
  simp only [h1, h2, h3, h4, h5, h6, h7, escapeMDW_jstr, Bind.bind, Except.bind,
    jsOr, jsTruthy, if_true]
  rw [h8]
  simp [jsSEqN, jsGtN, jsTruthy]

theorem fmtFinish_append_ne (hdr rest : List Char) (hne : rest ≠ []) :
    fmtFinish hdr (hdr ++ rest) = jsTrimStr (hdr ++ rest) := by
  unfold fmtFinish
  rw [isPrefixOf_self_append, if_pos rfl, if_neg]
  intro hlen
  apply hne
  rw [List.length_append] at hlen
  have hr0 : rest.length = 0 := by omega
  exact List.length_eq_zero.mp hr0

/-- The default header (no repository/sender in the payload). -/
def hdrDef : List Char :=
  mkHeader ( "Unknown Repo".toList) [ '#' ] ( "Unknown User".toList) [ '#' ]

/-- The spec's force-push example payload. -/
def pushForcePayload : JV :=
  .jobj [(( "ref".toList), .jstr ( "refs/heads/main".toList)),
         (( "commits".toList), .jarr []),
         (( "forced".toList), .jbool true),
         (( "compare".toList), .jstr ( "https://x".toList)),
         (( "repository".toList), .jobj [(( "full_name".toList), .jstr ( "t/r".toList)),
            (( "html_url".toList), .jstr ( "https://r".toList))]),
         (( "sender".toList), .jobj [(( "login".toList), .jstr ( "u".toList)),
            (( "html_url".toList), .jstr ( "https://u".toList))])]

/-- The spec's single-commit example payload (`message: "fix bug\nmore"`). -/
def pushOneCommitPayload : JV :=
  .jobj [(( "ref".toList), .jstr ( "refs/heads/main".toList)),
         (( "commits".toList), .jarr [.jobj
           [(( "id".toList), .jstr ( "abcdef0123456".toList)),
            (( "message".toList), .jstr (( "fix bug".toList) ++ [nlChar] ++ ( "more".toList))),
            (( "author".toList), .jobj [(( "name".toList), .jstr ( "a".toList))]),
            (( "url".toList), .jstr ( "https://c".toList))]]),
         (( "compare".toList), .jstr ( "https://x".toList)),
         (( "repository".toList), .jobj [(( "full_name".toList), .jstr ( "t/r".toList)),
            (( "html_url".toList), .jstr ( "https://r".toList))]),
         (( "sender".toList), .jobj [(( "login".toList), .jstr ( "u".toList)),
            (( "html_url".toList), .jstr ( "https://u".toList))])]

set_option maxRecDepth 8192 in
/-- C6 — push formatting in `worker.js`: (1) the force-push example
produces the force-push message with compare link; (2) the single-commit
example lists exactly one commit with short SHA `abcdef0`, only the
first line `fix bug` of the message, and the author name; (3) for every
non-empty well-formed commit list the handler reports the commit count
and renders exactly the first three commits (short SHA, first message
line, author), with the `... and N more` suffix exactly when more than
three exist, and derives the branch by stripping the ref prefixes;
(4) a tag-deletion push (deleted, `refs/tags/` ref, no commits, not
forced) produces no message. -/
theorem C6_push_formatting :
    (formatMessageW ( "push".toList) pushForcePayload
      = .ok ( r"*Repo:* [t/r](https://r) \| *By:* [u](https://u)\n*Force Pushed* to branch `main` \(no new commits\)\. [Compare changes](https://x)".toList))
    ∧ (formatMessageW ( "push".toList) pushOneCommitPayload
      = .ok ( r"*Repo:* [t/r](https://r) \| *By:* [u](https://u)\n*Pushed 1 commit* to branch `main`\. [Compare changes](https://x)\n  \- [abcdef0](https://c) fix bug \- _a_\n".toList))
    ∧ (∀ (b compare : List Char) (cs : List CommitR), cs ≠ [] →
        formatMessageW ( "push".toList)
          (mkPushPayload (( "refs/heads/".toList) ++ b) (cs.map commitToJV)
            (.jbool false) .undefV compare)
        = .ok (jsTrimStr (hdrDef
            ++ (pushedCountLine cs.length
                (escapeMarkdownV2W (jsReplaceOnce ( "refs/tags/".toList) [] b)) compare
            ++ (((cs.take 3).map renderedCommitLine).flatten
            ++ (if 3 < (cs.length : Int) then moreLine ((cs.length : Int) - 3) else []))))))
    ∧ (∀ (tg compare : List Char),
        formatMessageW ( "push".toList)
          (mkPushPayload (( "refs/tags/".toList) ++ tg) [] (.jbool false)
            (.jbool true) compare)
        = .ok []) := by
  refine ⟨by decide, by decide, ?_, ?_⟩
  · intro b compare cs hcs
    unfold formatMessageW
    rw [show headerParts (mkPushPayload (( "refs/heads/".toList) ++ b)
        (cs.map commitToJV) (.jbool false) .undefV compare)
      = .ok (( "Unknown Repo".toList), [ '#' ], ( "Unknown User".toList), [ '#' ]) from rfl]
    simp only [Bind.bind, Except.bind]
    rw [show fmtBody ( "push".toList)
        (mkPushPayload (( "refs/heads/".toList) ++ b) (cs.map commitToJV)
          (.jbool false) .undefV compare)
        (mkHeader ( "Unknown Repo".toList) [ '#' ] ( "Unknown User".toList) [ '#' ])
      = pushCase (mkPushPayload (( "refs/heads/".toList) ++ b) (cs.map commitToJV)
          (.jbool false) .undefV compare)
        (mkHeader ( "Unknown Repo".toList) [ '#' ] ( "Unknown User".toList) [ '#' ]) from by
        unfold fmtBody
        rw [if_pos rfl]]
    rw [pushCase_commits_eval b compare
      (mkHeader ( "Unknown Repo".toList) [ '#' ] ( "Unknown User".toList) [ '#' ]) cs hcs]
    dsimp only []
    have hassoc : mkHeader ( "Unknown Repo".toList) [ '#' ] ( "Unknown User".toList) [ '#' ]
        ++ pushedCountLine cs.length
            (escapeMarkdownV2W (jsReplaceOnce ( "refs/tags/".toList) [] b)) compare
        ++ ((cs.take 3).map renderedCommitLine).flatten
        ++ (if 3 < (cs.length : Int) then moreLine ((cs.length : Int) - 3) else [])
      = mkHeader ( "Unknown Repo".toList) [ '#' ] ( "Unknown User".toList) [ '#' ]
        ++ (pushedCountLine cs.length
            (escapeMarkdownV2W (jsReplaceOnce ( "refs/tags/".toList) [] b)) compare
        ++ (((cs.take 3).map renderedCommitLine).flatten
        ++ (if 3 < (cs.length : Int) then moreLine ((cs.length : Int) - 3) else []))) := by
      simp [List.append_assoc]
    rw [hassoc]
    have hne : pushedCountLine cs.length
          (escapeMarkdownV2W (jsReplaceOnce ( "refs/tags/".toList) [] b)) compare
        ++ (((cs.take 3).map renderedCommitLine).flatten
        ++ (if 3 < (cs.length : Int) then moreLine ((cs.length : Int) - 3) else []))
        ≠ [] := by
      unfold pushedCountLine
      rw [show ( r"*Pushed ".toList) = '*' :: ( r"Pushed ".toList) from by decide]
      simp
    rw [fmtFinish_append_ne _ _ hne]
    rfl
  · intro tg compare
    unfold formatMessageW
    rw [show headerParts (mkPushPayload (( "refs/tags/".toList) ++ tg) []
        (.jbool false) (.jbool true) compare)
      = .ok (( "Unknown Repo".toList), [ '#' ], ( "Unknown User".toList), [ '#' ]) from rfl]
    simp only [Bind.bind, Except.bind]
    rw [show fmtBody ( "push".toList)
        (mkPushPayload (( "refs/tags/".toList) ++ tg) [] (.jbool false)
          (.jbool true) compare)
        (mkHeader ( "Unknown Repo".toList) [ '#' ] ( "Unknown User".toList) [ '#' ])
      = pushCase (mkPushPayload (( "refs/tags/".toList) ++ tg) [] (.jbool false)
          (.jbool true) compare)
        (mkHeader ( "Unknown Repo".toList) [ '#' ] ( "Unknown User".toList) [ '#' ]) from by
        unfold fmtBody
        rw [if_pos rfl]]
    rw [pushCase_tagdel_eval tg compare
      (mkHeader ( "Unknown Repo".toList) [ '#' ] ( "Unknown User".toList) [ '#' ])]
    dsimp only []
    rw [show fmtFinish (mkHeader ( "Unknown Repo".toList) [ '#' ]
      ( "Unknown User".toList) [ '#' ]) [] = [] from by decide]

/-- Four commits for the truncation witness. -/
def witnessCommits : List CommitR :=
  [⟨( "1111111aaaa".toList), ( "m1".toList), ( "a1".toList), ( "u1".toList)⟩,
   ⟨( "2222222bbbb".toList), ( "m2".toList), ( "a2".toList), ( "u2".toList)⟩,
   ⟨( "3333333cccc".toList), ( "m3".toList), ( "a3".toList), ( "u3".toList)⟩,
   ⟨( "4444444dddd".toList), ( "m4".toList), ( "a4".toList), ( "u4".toList)⟩]

/-- Witness for C6 at concrete inputs: a four-commit push (listing three
commits and `and 1 more`) and a tag-deletion push (suppressed). -/
theorem C6_push_formatting_witness :
    (formatMessageW ( "push".toList)
      (mkPushPayload (( "refs/heads/".toList) ++ ( "main".toList))
        (witnessCommits.map commitToJV) (.jbool false) .undefV ( "https://x".toList))
      = .ok (jsTrimStr (hdrDef
          ++ (pushedCountLine witnessCommits.length
              (escapeMarkdownV2W (jsReplaceOnce ( "refs/tags/".toList) [] ( "main".toList)))
              ( "https://x".toList)
          ++ (((witnessCommits.take 3).map renderedCommitLine).flatten
          ++ (if 3 < (witnessCommits.length : Int)
              then moreLine ((witnessCommits.length : Int) - 3) else []))))))
    ∧ (formatMessageW ( "push".toList)
        (mkPushPayload (( "refs/tags/".toList) ++ ( "v1".toList)) [] (.jbool false)
          (.jbool true) ( "https://x".toList))
      = .ok []) :=
  ⟨C6_push_formatting.2.2.1 ( "main".toList) ( "https://x".toList) witnessCommits
    (by unfold witnessCommits; exact List.cons_ne_nil _ _),
   C6_push_formatting.2.2.2 ( "v1".toList) ( "https://x".toList)⟩

/-- C1 counterexample — the claim describes `escapeMarkdownV2` as
escaping backslashes first; the `worker.js` version does not escape
backslashes at all, and round-trip fidelity fails on the two-character
input `\a`: escaping leaves it unchanged and the destination parser's
un-escaping reads it as the single character `a`. -/
theorem C1_escape_roundtrip_cex :
    escapeMarkdownV2W [bslash] ≠ [bslash, bslash]
    ∧ unescapeMD (escapeMarkdownV2W [bslash, 'a']) ≠ [bslash, 'a'] := by
  constructor
  · decide
  · decide

/-- C1 (amended) — the `README.md` version of `escapeMarkdownV2`
escapes backslashes first and then the reserved class, so each
backslash or reserved character receives exactly one escaping backslash
(never a double escape), and un-escaping recovers every input exactly;
the `worker.js` version never escapes backslashes, so its round-trip
holds exactly for backslash-free inputs. -/
theorem C1_escape_roundtrip :
    (∀ s : List Char, escapeMarkdownV2R s = escapeOncePerChar s)
    ∧ (∀ s : List Char, unescapeMD (escapeMarkdownV2R s) = s)
    ∧ (∀ s : List Char, (∀ c ∈ s, c ≠ bslash) →
        unescapeMD (escapeMarkdownV2W s) = s) :=
  ⟨escapeMarkdownV2R_once, unescapeMD_escapeR, unescapeMD_escapeW_noBackslash⟩

/-- Witness for C1 at concrete inputs: round trips of `a_b\!` (README
version) and `a_b!` (worker version, backslash-free). -/
theorem C1_escape_roundtrip_witness :
    unescapeMD (escapeMarkdownV2R ( r"a_b\!".toList)) = ( r"a_b\!".toList)
    ∧ unescapeMD (escapeMarkdownV2W ( "a_b!".toList)) = ( "a_b!".toList) :=
  ⟨C1_escape_roundtrip.2.1 ( r"a_b\!".toList),
   C1_escape_roundtrip.2.2 ( "a_b!".toList) (by decide)⟩

/-- C10 — `escapeMarkdownV2` returns the empty string for every
falsy argument (empty string, `null`, `undefined`) without throwing, so
handlers may pass possibly-missing payload fields directly. -/
theorem C10_escape_total_falsy :
    escapeMDW (.jstr []) = .ok [] ∧ escapeMDW .jnull = .ok []
    ∧ escapeMDW .undefV = .ok [] ∧ escapeMDW (.jbool false) = .ok []
    ∧ escapeMDW (.jnum 0) = .ok [] := by
  refine ⟨rfl, rfl, rfl, rfl, ?_⟩
  decide

/-- C2 — signature verification: the correctly computed header
verifies true for every secret, body and digest function; flipping any
single character of the hex signature to a different (ASCII) character
verifies false; a signature of the wrong length verifies false (without
throwing — the verifier is a total function); a 32-byte digest renders
as 64 hex characters; and `timingSafeEqual` returns an immediate false
on length mismatch and otherwise succeeds exactly when the
XOR-accumulation over every byte pair is zero. -/
theorem C2_signature_verification :
    ∀ (mac : List Char → List Char → List Nat) (secret body : List Char),
      (verifyGitHubSignature mac secret body
        (sha256Lit ++ bytesToHex (mac secret body)) = true)
      ∧ (∀ (i : Nat) (c : Char) (hi : i < (bytesToHex (mac secret body)).length),
          (∀ x ∈ mac secret body, x < 256) → c.toNat < 128 →
          c ≠ (bytesToHex (mac secret body)).get ⟨i, hi⟩ →
          verifyGitHubSignature mac secret body
            (sha256Lit ++ (bytesToHex (mac secret body)).set i c) = false)
      ∧ (∀ sig : List Char, (∀ c ∈ sig, c.toNat < 128) →
          (∀ x ∈ mac secret body, x < 256) →
          sig.length ≠ (bytesToHex (mac secret body)).length →
          verifyGitHubSignature mac secret body (sha256Lit ++ sig) = false)
      ∧ ((∀ x ∈ mac secret body, x < 256) → (mac secret body).length = 32 →
          (bytesToHex (mac secret body)).length = 64)
      ∧ (∀ a b : List Char, jsLen16 a ≠ jsLen16 b → timingSafeEqual a b = false)
      ∧ (∀ a b : List Char, timingSafeEqual a b = true ↔
          (jsLen16 a = jsLen16 b ∧ tseFold (utf8Bytes a) (utf8Bytes b) = 0)) :=
  fun mac secret body =>
    ⟨verify_correct mac secret body,
     fun i c hi hb hc hne => verify_flip mac secret body i c hb hi hc hne,
     fun sig ha hb hl => verify_wrongLen mac secret body sig ha hb hl,
     fun hb h32 => bytesToHex_len64 mac secret body hb h32,
     fun a b h => timingSafeEqual_len_ne a b h,
     fun a b => timingSafeEqual_true_iff a b⟩

/-- Witness for C2 at a concrete digest function `fun _ _ => [0, 255]`
(hex `00ff`): the correct signature verifies, a flipped first hex digit
fails, a wrong-length signature fails, and a 32-byte digest gives 64 hex
characters. -/
theorem C2_signature_verification_witness :
    (verifyGitHubSignature (fun _ _ => [0, 255]) ( "k".toList) ( "m".toList)
      (sha256Lit ++ bytesToHex ((fun _ _ => [0, 255]) ( "k".toList) ( "m".toList))) = true)
    ∧ (verifyGitHubSignature (fun _ _ => [0, 255]) ( "k".toList) ( "m".toList)
      (sha256Lit ++ (bytesToHex ((fun _ _ => [0, 255]) ( "k".toList) ( "m".toList))).set 0 'f') = false)
    ∧ (verifyGitHubSignature (fun _ _ => [0, 255]) ( "k".toList) ( "m".toList)
      (sha256Lit ++ ( "0ff".toList)) = false)
    ∧ (bytesToHex ((fun _ _ => List.replicate 32 171) ( "k".toList) ( "m".toList))).length = 64
    ∧ timingSafeEqual ( "ab".toList) ( "abc".toList) = false := by
  refine ⟨(C2_signature_verification (fun _ _ => [0, 255]) ( "k".toList) ( "m".toList)).1,
    (C2_signature_verification (fun _ _ => [0, 255]) ( "k".toList) ( "m".toList)).2.1
      0 'f' (by decide) (by decide) (by decide) (by decide),
    (C2_signature_verification (fun _ _ => [0, 255]) ( "k".toList) ( "m".toList)).2.2.1
      ( "0ff".toList) (by decide) (by decide) (by decide),
    (C2_signature_verification (fun _ _ => List.replicate 32 171) ( "k".toList)
      ( "m".toList)).2.2.2.1 (by decide) (by decide),
    (C2_signature_verification (fun _ _ => [0, 255]) ( "k".toList) ( "m".toList)).2.2.2.2.1
      ( "ab".toList) ( "abc".toList) (by decide)⟩

/-- C4 counterexample — the claim says a malformed signature header
is rejected *before any digest computation*; for the header
`sha256=zz` (wrong length and non-hex) the instrumented verifier
returns false but records one digest computation — only a missing
prefix short-circuits before the digest. -/
theorem C4_shape_rejection_cex :
    verifyGitHubSignatureInstr (fun _ _ => [0, 255]) ( "k".toList) ( "m".toList)
      ( "sha256=zz".toList) = (false, 1) := by decide

/-- C4 (amended) — the verifier returns false for every header not
of the shape `sha256=` + 64 lowercase hex characters: a missing prefix
yields false with no digest computed; any header with the prefix
computes the digest exactly once, after which a wrong-length or
non-hex (ASCII) signature fails in the comparison; the plain verifier
agrees with the instrumented one. -/
theorem C4_shape_rejection :
    ∀ (mac : List Char → List Char → List Nat) (secret body : List Char),
      (∀ hdr : List Char, sha256Lit.isPrefixOf hdr = false →
        verifyGitHubSignatureInstr mac secret body hdr = (false, 0))
      ∧ (∀ rest : List Char,
        (verifyGitHubSignatureInstr mac secret body (sha256Lit ++ rest)).2 = 1)
      ∧ (∀ hdr : List Char, verifyGitHubSignature mac secret body hdr
          = (verifyGitHubSignatureInstr mac secret body hdr).1)
      ∧ (∀ sig : List Char, (∀ c ∈ sig, c.toNat < 128) →
          (∀ x ∈ mac secret body, x < 256) →
          sig.length ≠ (bytesToHex (mac secret body)).length →
          verifyGitHubSignature mac secret body (sha256Lit ++ sig) = false)
      ∧ (∀ sig : List Char, (∀ c ∈ sig, c.toNat < 128) →
          (∀ x ∈ mac secret body, x < 256) →
          (∃ c ∈ sig, isLowerHexDigit c = false) →
          verifyGitHubSignature mac secret body (sha256Lit ++ sig) = false) := by
  intro mac secret body
  refine ⟨?_, ?_, ?_, ?_, ?_⟩
  · intro hdr h
    unfold verifyGitHubSignatureInstr
    rw [h]
    simp
  · intro rest
    unfold verifyGitHubSignatureInstr
    rw [sha256Lit_isPrefixOf_append, if_pos rfl]
  · intro hdr
    unfold verifyGitHubSignature verifyGitHubSignatureInstr
    cases h : sha256Lit.isPrefixOf hdr <;> simp [h]
  · intro sig ha hb hl
    exact verify_wrongLen mac secret body sig ha hb hl
  · intro sig ha hb hbad
    by_cases hl : sig.length = (bytesToHex (mac secret body)).length
    · unfold verifyGitHubSignature
      rw [sha256Lit_isPrefixOf_append, if_pos rfl, drop7_sha256_append]
      have hne : sig ≠ bytesToHex (mac secret body) := by
        intro he
        obtain ⟨c, hc, hcbad⟩ := hbad
        rw [he] at hc
        rw [bytesToHex_isLowerHex _ hb c hc] at hcbad
        cases hcbad
      cases htse : timingSafeEqual sig (bytesToHex (mac secret body)) with
      | false => rfl
      | true =>
        exact absurd ((timingSafeEqual_ascii_iff _ _ ha
          (bytesToHex_ascii _ hb)).mp htse) hne
    · exact verify_wrongLen mac secret body sig ha hb hl

/-- Witness for C4 at concrete inputs: a prefix-less header rejected
with no digest, a prefixed header computing the digest once, and a
64-character non-hex signature rejected. -/
theorem C4_shape_rejection_witness :
    (verifyGitHubSignatureInstr (fun _ _ => [0, 255]) ( "k".toList) ( "m".toList)
      ( "xx".toList) = (false, 0))
    ∧ ((verifyGitHubSignatureInstr (fun _ _ => [0, 255]) ( "k".toList) ( "m".toList)
      (sha256Lit ++ ( "zz".toList))).2 = 1)
    ∧ (verifyGitHubSignature (fun _ _ => [0, 255]) ( "k".toList) ( "m".toList)
      (sha256Lit ++ ( "zzzz".toList)) = false) := by
  refine ⟨(C4_shape_rejection (fun _ _ => [0, 255]) ( "k".toList) ( "m".toList)).1
      ( "xx".toList) (by decide),
    (C4_shape_rejection (fun _ _ => [0, 255]) ( "k".toList) ( "m".toList)).2.1
      ( "zz".toList),
    (C4_shape_rejection (fun _ _ => [0, 255]) ( "k".toList) ( "m".toList)).2.2.2.2
      ( "zzzz".toList) (by decide) (by decide) ⟨'z', by decide, by decide⟩⟩

/-- A pull_request payload without the `pull_request` sub-structure. -/
def prPayloadNoPR : JV := .jobj [(( "action".toList), .jstr ( "opened".toList))]

/-- A push payload without `ref`. -/
def pushPayloadNoRef : JV := .jobj [(( "commits".toList), .jarr [])]

/-- C3 — contrary to the claim, the `worker.js` formatter *does*
throw on each of the three named payloads: a star payload lacking
`repository.stargazers_count` (the `.toString()` call on `undefined`),
a pull_request payload lacking the `pull_request` sub-structure (the
`.number` read on `undefined`), and a push payload lacking `ref` (the
`.replace` call on `undefined`).  The `fetch` handler catches these and
substitutes a fallback message, but `formatMessage` itself raises. -/
theorem C3_formatter_throws :
    formatMessageW ( "star".toList) starPayloadNoCount = .error .typeError
    ∧ formatMessageW ( "pull_request".toList) prPayloadNoPR = .error .typeError
    ∧ formatMessageW ( "push".toList) pushPayloadNoRef = .error .typeError := by
  refine ⟨?_, ?_, ?_⟩ <;> decide

/-- C7 counterexample — at the exact payload of the claim
(`{action:"created", repository:{full_name:"a/b"}, sender:{login:"u"}}`,
no `stargazers_count`), the `worker.js` star handler throws a TypeError
instead of returning a non-empty message. -/
theorem C7_star_cex :
    formatMessageW ( "star".toList) starPayloadNoCount = .error .typeError := by
  decide

/-- Star payload with a stargazer count, action `created`. -/
def starPayloadCreated : JV :=
  .jobj [(( "action".toList), .jstr ( "created".toList)),
         (( "repository".toList), .jobj [(( "full_name".toList), .jstr ( "a/b".toList)),
            (( "stargazers_count".toList), .jnum 5)]),
         (( "sender".toList), .jobj [(( "login".toList), .jstr ( "u".toList))])]

/-- Star payload with a stargazer count, action `deleted`. -/
def starPayloadDeleted : JV :=
  .jobj [(( "action".toList), .jstr ( "deleted".toList)),
         (( "repository".toList), .jobj [(( "full_name".toList), .jstr ( "a/b".toList)),
            (( "stargazers_count".toList), .jnum 5)]),
         (( "sender".toList), .jobj [(( "login".toList), .jstr ( "u".toList))])]

/-- Star payload, action `edited`. -/
def starPayloadEdited : JV :=
  .jobj [(( "action".toList), .jstr ( "edited".toList)),
         (( "repository".toList), .jobj [(( "full_name".toList), .jstr ( "a/b".toList)),
            (( "stargazers_count".toList), .jnum 5)]),
         (( "sender".toList), .jobj [(( "login".toList), .jstr ( "u".toList))])]

/-- The message the worker star handler produces for `starPayloadCreated`. -/
def starMsgCreated : List Char :=
  ( r"*Repo:* [a/b](#) \| *By:* [u](#)\n*Starred* repository ".toList)
  ++ starSeq ++ ( r" \(5 total\)".toList)

/-- The message the worker star handler produces for `starPayloadDeleted`. -/
def starMsgDeleted : List Char :=
  ( r"*Repo:* [a/b](#) \| *By:* [u](#)\n*Unstarred* repository ".toList)
  ++ unstarSeq ++ ( r" \(5 total\)".toList)

/-- C7 (amended) — with `repository.stargazers_count` present
(which the worker version requires, unlike the claim's payload), the
star event behaves as claimed: `created` yields a non-empty message
containing the escaped `a/b`, `u` and the star icon; `deleted` yields a
non-empty message with the unstar icon; `edited` yields the empty
string. -/
theorem C7_star_event :
    (formatMessageW ( "star".toList) starPayloadCreated = .ok starMsgCreated
      ∧ starMsgCreated ≠ []
      ∧ ( "a/b".toList) <:+: starMsgCreated
      ∧ ( "u".toList) <:+: starMsgCreated
      ∧ starSeq <:+: starMsgCreated
      ∧ ( "*Starred*".toList) <:+: starMsgCreated)
    ∧ (formatMessageW ( "star".toList) starPayloadDeleted = .ok starMsgDeleted
      ∧ starMsgDeleted ≠ []
      ∧ unstarSeq <:+: starMsgDeleted
      ∧ ( "*Unstarred*".toList) <:+: starMsgDeleted)
    ∧ formatMessageW ( "star".toList) starPayloadEdited = .ok [] := by
  refine ⟨⟨?_, ?_, ?_, ?_, ?_, ?_⟩, ⟨?_, ?_, ?_, ?_⟩, ?_⟩ <;> decide

theorem jsubNaN_none_right (x : Option Int) : jsubNaN x none = none := by
  cases x <;> rfl

theorem jsTruthy_jstr_ne_nil (s : List Char) (h : s ≠ []) :
    jsTruthy (.jstr s) = true := by
  cases s with
  | nil => exact absurd rfl h
  | cons c t => rfl

theorem formatDurationR_some (parse : List Char → Option Int)
    (s e : List Char) (ts te : Int) (hs : s ≠ []) (he : e ≠ [])
    (hps : parse s = some ts) (hpe : parse e = some te) :
    formatDurationR parse (.jstr s) (.jstr e) =
      (if jltNaN (some (te - ts)) 0 then [] else
        ( "(took ".toList) ++ escapeMarkdownV2R (jsTrimStr (
          (if jgtNaN (jfloorDivNaN (some (te - ts)) 3600000) 0
            then jnumToStrNaN (jfloorDivNaN (some (te - ts)) 3600000) ++ ( "h ".toList)
            else [])
          ++ (if jgtNaN (jmodNaN (jfloorDivNaN (some (te - ts)) 60000) 60) 0
            then jnumToStrNaN (jmodNaN (jfloorDivNaN (some (te - ts)) 60000) 60)
              ++ ( "m ".toList)
            else [])
          ++ jnumToStrNaN (jmodNaN (jfloorDivNaN (some (te - ts)) 1000) 60)
          ++ [ 's' ])) ++ [ ')' ]) := by
  unfold formatDurationR
  rw [jsTruthy_jstr_ne_nil s hs, jsTruthy_jstr_ne_nil e he]
  simp only [Bool.not_true, Bool.or_self, Bool.false_eq_true, if_false]
  rw [show jdate parse (.jstr s) = parse s from rfl,
    show jdate parse (.jstr e) = parse e from rfl, hps, hpe]
  rfl

theorem formatDurationR_unparseable (parse : List Char → Option Int)
    (s e : List Char) (hs : s ≠ []) (he : e ≠ []) (hps : parse s = none) :
    formatDurationR parse (.jstr s) (.jstr e) = ( "(took NaNs)".toList) := by
  unfold formatDurationR
  rw [jsTruthy_jstr_ne_nil s hs, jsTruthy_jstr_ne_nil e he]
  simp only [Bool.not_true, Bool.or_self, Bool.false_eq_true, if_false]
  rw [show jdate parse (.jstr s) = parse s from rfl, hps,
    jsubNaN_none_right]
  rfl

/-- C8 — the `README.md` `formatDuration`: when `end` precedes `start`
the result is empty, a 3725-second span renders `(took 1h 2m 5s)` and a
45-second span renders `(took 45s)`; but — contrary to the claim and to
the intent of the function's dead `try`/`catch` — an unparseable
timestamp does **not** give the empty string: `new Date` never throws,
the `NaN` flows through the arithmetic, and the result is the garbage
duration `(took NaNs)`. -/
theorem C8_formatDuration_eval :
    ∀ (parse : List Char → Option Int) (s e : List Char) (ts te : Int),
      (s ≠ [] → e ≠ [] → parse s = some ts → parse e = some te → te < ts →
        formatDurationR parse (.jstr s) (.jstr e) = [])
      ∧ (s ≠ [] → e ≠ [] → parse s = some ts → parse e = some te →
        te - ts = 3725000 →
        formatDurationR parse (.jstr s) (.jstr e) = ( "(took 1h 2m 5s)".toList))
      ∧ (s ≠ [] → e ≠ [] → parse s = some ts → parse e = some te →
        te - ts = 45000 →
        formatDurationR parse (.jstr s) (.jstr e) = ( "(took 45s)".toList))
      ∧ (s ≠ [] → e ≠ [] → parse s = none →
        formatDurationR parse (.jstr s) (.jstr e) = ( "(took NaNs)".toList)
        ∧ ( "(took NaNs)".toList) ≠ ([] : List Char)) := by
  intro parse s e ts te
  refine ⟨?_, ?_, ?_, ?_⟩
  · intro hs he hps hpe hlt
    rw [formatDurationR_some parse s e ts te hs he hps hpe]
    rw [if_pos (by simp [jltNaN]; omega)]
  · intro hs he hps hpe hdiff
    rw [formatDurationR_some parse s e ts te hs he hps hpe, hdiff]
    decide
  · intro hs he hps hpe hdiff
    rw [formatDurationR_some parse s e ts te hs he hps hpe, hdiff]
    decide
  · intro hs he hps
    exact ⟨formatDurationR_unparseable parse s e hs he hps, by decide⟩

/-- Witness for C8 at a concrete parse table: negative span, the
3725-second and 45-second spans, and an unparseable start. -/
theorem C8_formatDuration_eval_witness :
    (formatDurationR (fun x => if x = ( "A".toList) then some 10000
        else if x = ( "B".toList) then some 0 else none)
      (.jstr ( "A".toList)) (.jstr ( "B".toList)) = [])
    ∧ (formatDurationR (fun x => if x = ( "A".toList) then some 0
        else if x = ( "B".toList) then some 3725000 else none)
      (.jstr ( "A".toList)) (.jstr ( "B".toList)) = ( "(took 1h 2m 5s)".toList))
    ∧ (formatDurationR (fun x => if x = ( "A".toList) then some 0
        else if x = ( "B".toList) then some 45000 else none)
      (.jstr ( "A".toList)) (.jstr ( "B".toList)) = ( "(took 45s)".toList))
    ∧ (formatDurationR (fun x => if x = ( "A".toList) then some 0
        else if x = ( "B".toList) then some 45000 else none)
      (.jstr ( "Z".toList)) (.jstr ( "B".toList)) = ( "(took NaNs)".toList)) := by
  refine ⟨?_, ?_, ?_, ?_⟩
  · exact (C8_formatDuration_eval _ ( "A".toList) ( "B".toList) 10000 0).1
      (by decide) (by decide) (by decide) (by decide) (by decide)
  · exact (C8_formatDuration_eval _ ( "A".toList) ( "B".toList) 0 3725000).2.1
      (by decide) (by decide) (by decide) (by decide) (by decide)
  · exact (C8_formatDuration_eval _ ( "A".toList) ( "B".toList) 0 45000).2.2.1
      (by decide) (by decide) (by decide) (by decide) (by decide)
  · exact ((C8_formatDuration_eval _ ( "Z".toList) ( "B".toList) 0 0).2.2.2
      (by decide) (by decide) (by decide)).1
